import Mathlib

/-!
Verification of the jitphone code-transformation service against its
natural-language specification.

The JavaScript sources are shallowly embedded: every JavaScript string
transformation is modelled as a total Lean function on `String` / `List Char`.
Each global regex `replace` from the source is rendered as a left-to-right
scan (`jsReplaceScan`) whose step function mirrors the concrete regular
expression of the source, using the fact that the patterns appearing in this
repository are deterministic after JavaScript's greedy/lazy matching rules are
unfolded (the analysis is recorded at each step function).  JavaScript numbers
are modelled by `Nat`/`Int`; the embedding is exact for the integer literals
that the folding passes can meet below 2^53.  Fallible JavaScript code
(functions that `throw`) is embedded with `Except String`.
-/

namespace JS

/-- Character constants used inside generated program text. -/
def dquoteC : Char := Char.ofNat 34

/-- Apostrophe character (used by generated JavaScript string literals). -/
def squoteC : Char := Char.ofNat 39

/-- Opening curly brace character. -/
def obraceC : Char := Char.ofNat 123

/-- Closing curly brace character. -/
def cbraceC : Char := Char.ofNat 125

/-- Backtick character (JavaScript template literal delimiter). -/
def btickC : Char := Char.ofNat 96

/-- Backslash character. -/
def bslashC : Char := Char.ofNat 92

/-- Test for JavaScript's regex word class `\w = [A-Za-z0-9_]`. -/
def isWordChar (c : Char) : Bool := c.isAlpha || c.isDigit || c == '_'

/-- Test for JavaScript's regex whitespace class `\s` (ASCII part: space, tab,
newline, carriage return, vertical tab, form feed). -/
def isJsSpace (c : Char) : Bool :=
  c == ' ' || c == '\t' || c == '\n' || c == '\x0d' || c == '\x0b' || c == '\x0c'

/-- Test whether a regex word boundary `\b` holds between the previous
character (`none` at the start of the string) and a word character. -/
def boundaryOk (prev : Option Char) : Bool :=
  match prev with
  | none => true
  | some c => !isWordChar c

/-- Substring test, the embedding of `String.prototype.includes`. -/
def hasSubstr : List Char → List Char → Bool
  | l, n =>
    if n.isPrefixOf l then true
    else
      match l with
      | [] => false
      | _ :: t => hasSubstr t n

/-- Embedding of `hay.includes(needle)`. -/
def jsIncludes (hay needle : String) : Bool := hasSubstr hay.data needle.data

/-- Embedding of `s.startsWith(pre)` (kernel-reducible). -/
def jsStartsWith (s pre : String) : Bool := pre.data.isPrefixOf s.data

/-- Split helper for `jsSplitChar`. -/
def jsSplitCharAux (sep : Char) : List Char → List Char → List String
  | [], acc => [String.mk acc.reverse]
  | c :: t, acc =>
    if c == sep then String.mk acc.reverse :: jsSplitCharAux sep t []
    else jsSplitCharAux sep t (c :: acc)

/-- Embedding of `s.split(sep)` for a one-character separator. -/
def jsSplitChar (sep : Char) (s : String) : List String :=
  jsSplitCharAux sep s.data []

/-- Embedding of `list.join(sep)` (kernel-reducible). -/
def jsJoin (sep : String) : List String → String
  | [] => ""
  | x :: t => t.foldl (fun acc y => acc ++ sep ++ y) x

/-- Numeric value of a digit string (the embedding of `Number` on the digit
strings captured by `(\d+)`; exact below 2^53, which covers every literal the
theorems below evaluate). -/
def natOfDigits (ds : List Char) : Nat :=
  ds.foldl (fun n c => n * 10 + (c.toNat - 48)) 0

/-- Consume a literal token from the input, returning the rest. -/
def pTok (tok l : List Char) : Option (List Char) :=
  if tok.isPrefixOf l then some (l.drop tok.length) else none

/-- Try a parser at every suffix, left to right; this implements the leftmost
match rule of an unanchored JavaScript regex search. -/
def scanFirst (f : List Char → Option α) : List Char → Option α
  | [] => f []
  | c :: t =>
    match f (c :: t) with
    | some a => some a
    | none => scanFirst f t

/-- Parser fragment `\s*` (always succeeds). -/
def pWs (l : List Char) : List Char := l.dropWhile JS.isJsSpace

/-- Parser fragment `\s+` (at least one whitespace character). -/
def pWsPlus (l : List Char) : Option (List Char) :=
  match l with
  | [] => none
  | c :: cs => if JS.isJsSpace c then some (cs.dropWhile JS.isJsSpace) else none

/-- Parser fragment `(\w+)`: a maximal non-empty word-character run. -/
def pWord (l : List Char) : Option (List Char × List Char) :=
  let w := l.takeWhile JS.isWordChar
  if w.isEmpty then none else some (w, l.dropWhile JS.isWordChar)


/-- Driver for a global regex replacement `str.replace(/re/g, rep)`.

The step function receives the character before the current position (for
word-boundary tests) and the remaining text.  `some (rep, k)` means the regex
matched a prefix of `k + 1` characters which is replaced by `rep`; scanning
resumes after the match, exactly as JavaScript resumes a global replace after
the end of the previous match.  `none` means no match starts here, so one
character is emitted unchanged.

The recursion is structural on a fuel argument so that the compiled function
reduces inside the kernel; since every iteration consumes at least one input
character, fuel equal to the input length (as supplied by `jsReplace`) makes
the fuel bound unreachable, and the function agrees exactly with the
unbounded scan. -/
def jsReplaceScan (step : Option Char → List Char → Option (List Char × Nat)) :
    Nat → Option Char → List Char → List Char
  | 0, _, l => l
  | _, _, [] => []
  | fuel + 1, prev, c :: cs =>
    match step prev (c :: cs) with
    | some (rep, k) =>
        rep ++ jsReplaceScan step fuel (some ((c :: cs).getD k c)) (cs.drop k)
    | none => c :: jsReplaceScan step fuel (some c) cs

/-- String-level wrapper around `jsReplaceScan`. -/
def jsReplace (step : Option Char → List Char → Option (List Char × Nat))
    (s : String) : String :=
  String.mk (jsReplaceScan step s.data.length none s.data)

/-- Step for a whole-word replacement `str.replace(/\bWORD\b/g, repl)`:
the word must start at a word boundary and must not be followed by a word
character. -/
def wordReplaceStep (w repl : List Char) (prev : Option Char) (l : List Char) :
    Option (List Char × Nat) :=
  if boundaryOk prev && w.isPrefixOf l then
    match l.drop w.length with
    | [] => some (repl, w.length - 1)
    | c :: _ => if isWordChar c then none else some (repl, w.length - 1)
  else none

/-- Embedding of `code.replace(new RegExp('\\b' + word + '\\b', 'g'), repl)`,
the pervasive whole-word substitution idiom of the sources. -/
def wordReplace (word repl : String) (s : String) : String :=
  jsReplace (wordReplaceStep word.data repl.data) s

/-- Scan for a whole-word occurrence (word boundaries on both sides) of a
word inside a text, the formal reading of "the identifier remains in the
output": an occurrence of `eval` inside `__ios_safe_eval` or `evaluateX` is
not word-bounded and therefore does not count. -/
def wordOccurScan (w : List Char) : Option Char → List Char → Bool
  | _, [] => false
  | prev, c :: cs =>
    (boundaryOk prev && w.isPrefixOf (c :: cs) &&
      (match (c :: cs).drop w.length with
       | [] => true
       | c2 :: _ => !isWordChar c2)) ||
    wordOccurScan w (some c) cs

/-- Whole-word occurrence test at the string level. -/
def hasWordOccurrence (word s : String) : Bool :=
  wordOccurScan word.data none s.data

end JS

namespace JITEngine

open JS

/-- Configuration record for one optimization level
(`JITEngine.optimizationLevels` values). -/
structure LevelCfg where
  enableJIT : Bool
  optimizations : List String
deriving Repr, DecidableEq

/-- Embedding of the `optimizationLevels` table of `JITEngine`'s constructor:
O0 enables nothing, O1..O3 enable cumulative pass lists. -/
def optimizationLevels : List (String × LevelCfg) :=
  [ ("O0", ⟨false, []⟩),
    ("O1", ⟨true, ["inline", "const-fold"]⟩),
    ("O2", ⟨true, ["inline", "const-fold", "dead-code", "loop-opt"]⟩),
    ("O3", ⟨true, ["inline", "const-fold", "dead-code", "loop-opt", "vectorize"]⟩) ]

/-- Matching step for one constant-folding pattern
`/\b(\d+)\s*OP\s*(\d+)\b/g` at the current position.  The greedy digit and
whitespace classes are deterministic here: shrinking `(\d+)` or `\s*` always
puts a digit or a space in front of the next literal, so no backtracking can
succeed, and the match is the maximal-munch parse implemented below.  The
trailing `\b` requires the character after the second digit run to be a
non-word character (or the end). -/
def foldStep (op : Char) (f : Nat → Nat → Int) (prev : Option Char)
    (l : List Char) : Option (List Char × Nat) :=
  if !boundaryOk prev then none
  else
    let d1 := l.takeWhile Char.isDigit
    if d1.isEmpty then none
    else
      let r1 := (l.dropWhile Char.isDigit).dropWhile isJsSpace
      match r1 with
      | [] => none
      | c :: r2 =>
        if c != op then none
        else
          let r3 := r2.dropWhile isJsSpace
          let d2 := r3.takeWhile Char.isDigit
          if d2.isEmpty then none
          else
            let rest := r3.dropWhile Char.isDigit
            let consumed := l.length - rest.length
            let rep := (toString (f (natOfDigits d1) (natOfDigits d2))).data
            match rest with
            | [] => some (rep, consumed - 1)
            | c2 :: _ => if isWordChar c2 then none else some (rep, consumed - 1)

/-- Embedding of `JITEngine.constantFolding`: three chained global replaces
folding `a + b`, `a - b`, `a * b` over decimal literal operands.  The
replacement string is `String(Number(a) OP Number(b))`. -/
def constantFolding (code : String) : String :=
  let s1 := jsReplace (foldStep '+' (fun a b => (a : Int) + b)) code
  let s2 := jsReplace (foldStep '-' (fun a b => (a : Int) - b)) s1
  jsReplace (foldStep '*' (fun a b => (a : Int) * b)) s2

/-- Matching step for
`/function\s+(\w+)\s*\([^)]*\)\s*{\s*return\s+([^;]+);\s*}/g`
(`JITEngine.inlineOptimization`).  All the greedy classes stop at the first
character outside them and are followed by a literal outside the class, so
the parse below (maximal munch at each class) is the exact JavaScript match.
Per the source callback, a match is rewritten to an arrow-function constant
only when the captured return expression is shorter than 50 characters;
otherwise the matched text is kept (but scanning still resumes after it). -/
def inlineStep (_prev : Option Char) (l : List Char) : Option (List Char × Nat) := do
  let r1 ← pTok "function".data l
  let r2 := r1.dropWhile isJsSpace
  if r2.length == r1.length then none
  else
    let funcName := r2.takeWhile isWordChar
    if funcName.isEmpty then none
    else
      let r3 := (r2.dropWhile isWordChar).dropWhile isJsSpace
      let r4 ← pTok "(".data r3
      let r5 := r4.dropWhile (fun c => c != ')')
      let r6 ← pTok ")".data r5
      let r7 := r6.dropWhile isJsSpace
      let r8 ← pTok [obraceC] r7
      let r9 := r8.dropWhile isJsSpace
      let r10 ← pTok "return".data r9
      let r11 := r10.dropWhile isJsSpace
      if r11.length == r10.length then none
      else
        let retExpr := r11.takeWhile (fun c => c != ';')
        if retExpr.isEmpty then none
        else
          let r12 := r11.dropWhile (fun c => c != ';')
          let r13 ← pTok ";".data r12
          let r14 := r13.dropWhile isJsSpace
          let rest ← pTok [cbraceC] r14
          let consumed := l.length - rest.length
          if retExpr.length < 50 then
            let rep := "const ".data ++ funcName ++ " = () => ".data ++ retExpr ++ ";".data
            some (rep, consumed - 1)
          else
            some (l.take consumed, consumed - 1)

/-- Embedding of `JITEngine.inlineOptimization`. -/
def inlineOptimization (code : String) : String :=
  jsReplace inlineStep code

/-- Matching step for `/return\s+[^;]+;\s*[\s\S]*?(?=}|$)/g`
(`JITEngine.deadCodeElimination`).  After the return statement and the greedy
whitespace run, the lazy `[\s\S]*?` extends to the first position whose next
character is `}` (the lookahead), or to the end of the string where `$`
always satisfies the lookahead.  The replacement is the first
`/return\s+[^;]+;/` match of the matched text, which is exactly its
`return ... ;` head. -/
def deadCodeStep (_prev : Option Char) (l : List Char) : Option (List Char × Nat) :=
  if ("return".data).isPrefixOf l then
    let r1 := l.drop 6
    let r2 := r1.dropWhile isJsSpace
    if r2.length == r1.length then none
    else
      let expr := r2.takeWhile (fun c => c != ';')
      if expr.isEmpty then none
      else
        match r2.dropWhile (fun c => c != ';') with
        | [] => none
        | _ :: r3 =>
          let r4 := r3.dropWhile isJsSpace
          let rest := r4.dropWhile (fun c => c != cbraceC)
          let consumed := l.length - rest.length
          let ws := r1.takeWhile isJsSpace
          let rep := "return".data ++ ws ++ expr ++ [';']
          some (rep, consumed - 1)
  else none

/-- Embedding of `JITEngine.deadCodeElimination`. -/
def deadCodeElimination (code : String) : String :=
  jsReplace deadCodeStep code

/-- Embedding of `JITEngine.loopOptimization`: the source replaces every
match of `/for\s*\([^)]+\)\s*{([^}]*?)}/g` by the matched text itself
(`return match;` in the callback), so the function is the identity on every
input string. -/
def loopOptimization (code : String) : String := code

/-- Parser for the head of the vectorization pattern,
`for\s*\(\s*let\s+(\w+)`; yields the captured index variable. -/
def vectorizeHead (l : List Char) : Option (List Char × List Char) := do
  let r1 ← pTok "for".data l
  let r2 ← pTok "(".data (pWs r1)
  let r3 ← pTok "let".data (pWs r2)
  let r4 ← pWsPlus r3
  pWord r4

/-- Parser for the loop condition of the vectorization pattern,
`\s*=\s*0\s*;\s*IDX\s*<\s*(\w+)\.length\s*;\s*IDX\+\+\s*\)\s*{`;
yields the captured array name (`IDX` is the back reference `\1`). -/
def vectorizeCond (idx l : List Char) : Option (List Char × List Char) := do
  let r1 ← pTok "=".data (pWs l)
  let r2 ← pTok "0".data (pWs r1)
  let r3 ← pTok ";".data (pWs r2)
  let r4 ← pTok idx (pWs r3)
  let r5 ← pTok "<".data (pWs r4)
  let (arr, r6) ← pWord (pWs r5)
  let r7 ← pTok ".length".data r6
  let r8 ← pTok ";".data (pWs r7)
  let r9 ← pTok idx (pWs r8)
  let r10 ← pTok "++".data r9
  let r11 ← pTok ")".data (pWs r10)
  let r12 ← pTok [obraceC] (pWs r11)
  pure (arr, r12)

/-- Parser for the loop body of the vectorization pattern,
`\s*(\w+)\[IDX\]\s*=\s*([^;]+);\s*}`; yields the captured assignment
target and right-hand side. -/
def vectorizeBody (idx l : List Char) : Option (List Char × List Char × List Char) := do
  let (target, r1) ← pWord (pWs l)
  let r2 ← pTok "[".data r1
  let r3 ← pTok idx r2
  let r4 ← pTok "]".data r3
  let r5 ← pTok "=".data (pWs r4)
  let r6 := pWs r5
  let op := r6.takeWhile (fun c => c != ';')
  if op.isEmpty then none
  else do
    let r7 ← pTok ";".data (r6.dropWhile (fun c => c != ';'))
    let rest ← pTok [cbraceC] (pWs r7)
    pure (target, op, rest)

/-- Matching step for the vectorization pattern
`/for\s*\(\s*let\s+(\w+)\s*=\s*0\s*;\s*\1\s*<\s*(\w+)\.length\s*;\s*\1\+\+\s*\)\s*{\s*(\w+)\[\1\]\s*=\s*([^;]+);\s*}/g`.
Greedy word/space/class runs are deterministic because each is followed by a
literal outside the class; the two back references `\1` are checked by
comparing against the captured index variable.  The replacement is
`target = array.map((item, index) => operation);`. -/
def vectorizeStep (_prev : Option Char) (l : List Char) : Option (List Char × Nat) := do
  let (idx, r1) ← vectorizeHead l
  let (arr, r2) ← vectorizeCond idx r1
  let (target, op, rest) ← vectorizeBody idx r2
  let consumed := l.length - rest.length
  let rep := target ++ " = ".data ++ arr ++ ".map((item, ".data ++ idx ++
    ") => ".data ++ op ++ ");".data
  pure (rep, consumed - 1)

/-- Embedding of `JITEngine.vectorization`. -/
def vectorization (code : String) : String :=
  jsReplace vectorizeStep code

/-- Dispatch of one named pass inside `JITEngine.optimize`'s `switch`.
Unknown pass names leave the code unchanged (no `default` case). -/
def applyPass (code : String) (pass : String) : String :=
  if pass == "inline" then inlineOptimization code
  else if pass == "const-fold" then constantFolding code
  else if pass == "dead-code" then deadCodeElimination code
  else if pass == "loop-opt" then loopOptimization code
  else if pass == "vectorize" then vectorization code
  else code

/-- Embedding of `JITEngine.optimize`: look up the level configuration and
fold the enabled passes over the code, left to right.  An unknown level makes
`this.optimizationLevels[optimizationLevel]` `undefined`, so reading
`.optimizations` throws a `TypeError`; this is the `Except.error` branch. -/
def optimize (code : String) (optimizationLevel : String) : Except String String :=
  match optimizationLevels.lookup optimizationLevel with
  | none =>
      .error "Cannot read properties of undefined (reading \x27optimizations\x27)"
  | some cfg => .ok (cfg.optimizations.foldl applyPass code)

/-- Embedding of `JITEngine.prepareForJIT`: with JIT enabled the code is
spliced into the V8-hint template; otherwise it is returned unchanged. -/
def prepareForJIT (code : String) (enableJIT : Bool) : String :=
  if !enableJIT then code
  else
    "\n      // V8 JIT optimization hints\n      \x27use strict\x27;\n      \n" ++
    "      // Enable aggressive optimizations\n" ++
    "      function __v8OptimizationHint() \x7b\n" ++
    "        // Force JIT compilation for hot functions\n" ++
    "        return true;\n      \x7d\n      \n" ++
    "      // Original code with JIT preparation\n      " ++ code ++ "\n    "

/-- Result record built by a successful `JITEngine.compile` (the fields the
specification's claims mention). -/
structure CompileResult where
  originalCode : String
  optimizedCode : String
  optimizations : List String
  jitEnabled : Bool
deriving Repr, DecidableEq

/-- Embedding of `JITEngine.compile`.  `parseCode` (V8 syntax validation) and
`compileWithV8` run foreign V8 machinery, so they are taken as parameters:
any `Except`-valued behaviour of these stages is allowed.  Every exception of
the `try` block is caught and rethrown as `JIT Compilation failed: ...`.
The cache branch is not modelled (a fresh engine instance with an empty cache
is assumed). -/
def compile (parseCode : String → Except String String)
    (compileWithV8 : String → Except String String)
    (code : String) (optimizationLevel : String) (enableJIT : Bool) :
    Except String CompileResult :=
  let body : Except String CompileResult := do
    let parsedCode ← parseCode code
    let optimizedCode ← optimize parsedCode optimizationLevel
    let jitCode := prepareForJIT optimizedCode enableJIT
    let _ ← compileWithV8 jitCode
    pure
      { originalCode := code
        optimizedCode := jitCode
        optimizations :=
          ((optimizationLevels.lookup optimizationLevel).map
            LevelCfg.optimizations).getD []
        jitEnabled := enableJIT }
  match body with
  | .error e => .error ("JIT Compilation failed: " ++ e)
  | .ok r => .ok r

/-- Behaviour of the sandboxed script from the host's point of view.  The
inserted code is foreign dynamics (V8), so its run is abstracted into the
four outcomes the wrapper in `JITEngine.execute` can observe: the wrapped
IIFE completes with a value, the inserted code throws synchronously (caught
by the inner `try`/`catch`), `vm.Script.runInContext` aborts on the
wall-clock timeout, or `new vm.Script` rejects the text as invalid syntax. -/
inductive SandboxOutcome where
  | completes (value : String)
  | throwsError (message : String)
  | timesOut (message : String)
  | invalidSyntax (message : String)
deriving Repr, DecidableEq

/-- Value returned by `JITEngine.execute` when it does not throw: either the
script's completion value, or the structured failure object
`{ error: message, success: false }` produced by the inner catch. -/
inductive ExecResult where
  | value (v : String)
  | runtimeFailure (error : String)
deriving Repr, DecidableEq

/-- Embedding of `JITEngine.execute`: a synchronous exception of the inserted
code is converted by the script's inner `try`/`catch` into the structured
object `{ error, success: false }` and returned normally; every error that
reaches the outer `catch` (timeout abort, syntax rejection) is rethrown as
`Execution failed: ...`. -/
def execute (b : SandboxOutcome) : Except String ExecResult :=
  match b with
  | .completes v => .ok (.value v)
  | .throwsError m => .ok (.runtimeFailure m)
  | .timesOut m => .error ("Execution failed: " ++ m)
  | .invalidSyntax m => .error ("Execution failed: " ++ m)

/-- Embedding of the JSON string escaping performed by `JSON.stringify` on
the members of the cache-key records (quotation mark, backslash, and the
common control characters; other characters are emitted verbatim). -/
def jsonEscapeChar (c : Char) : List Char :=
  if c == JS.dquoteC then [JS.bslashC, JS.dquoteC]
  else if c == JS.bslashC then [JS.bslashC, JS.bslashC]
  else if c == '\n' then [JS.bslashC, 'n']
  else if c == '\t' then [JS.bslashC, 't']
  else if c == '\x0d' then [JS.bslashC, 'r']
  else [c]

/-- JSON serialization of one string value. -/
def jsonString (s : String) : String :=
  String.mk ([JS.dquoteC] ++ s.data.flatMap jsonEscapeChar ++ [JS.dquoteC])

/-- Embedding of the MD5 pre-image built by `JITEngine.generateCacheKey`:
`JSON.stringify({ code, options })`.  The options object is abstracted by its
JSON serialization.  The cache key itself is the MD5 digest of this string;
since MD5 is a fixed deterministic function, two key computations agree
exactly when these pre-images agree. -/
def generateCacheKeyInput (code optionsJson : String) : String :=
  String.mk ([JS.obraceC] ++ "\x22code\x22:".data ++ (jsonString code).data ++
    ",\x22options\x22:".data ++ optionsJson.data ++ [JS.cbraceC])

end JITEngine

namespace IOSTranslator

open JS

/-- Embedding of `iosCompatibilityRules.restrictedAPIs`. -/
def restrictedAPIs : List String :=
  ["eval", "Function", "setTimeout", "setInterval",
   "XMLHttpRequest", "fetch", "WebSocket"]

/-- Embedding of `iosCompatibilityRules.jscLimitations.maxCodeSize`
(1024 * 1024 bytes). -/
def maxCodeSize : Nat := 1024 * 1024

/-- Compatibility verdict record returned by `validateIOSCompatibility`.
The confidence is a JavaScript number `Math.max(0, 1 - issues.length * 0.2)`;
it is modelled as an exact rational (the float computation agrees with the
rational one on the at most eight possible issue counts). -/
structure CompatibilityVerdict where
  compatible : Bool
  issues : List String
  confidence : ℚ
deriving Repr, DecidableEq

/-- Embedding of `IOSTranslator.validateIOSCompatibility`: an issue is pushed
for every restricted API name that occurs as a substring of the code while
its `__ios_safe_` substituted form does not occur anywhere, then an issue for
code larger than `maxCodeSize`; `compatible` is emptiness of the issues list
and `confidence` is `max(0, 1 - issues.length * 0.2)`. -/
def validateIOSCompatibility (code : String) : CompatibilityVerdict :=
  let apiIssues := restrictedAPIs.filter
    (fun api => jsIncludes code api && !jsIncludes code ("__ios_safe_" ++ api))
  let issues := apiIssues.map (fun api => "Restricted API detected: " ++ api) ++
    (if code.length > maxCodeSize then ["Code size exceeds iOS limits"] else [])
  { compatible := issues.isEmpty
    issues := issues
    confidence := max 0 (1 - (issues.length : ℚ) * (1 / 5)) }

/-- Index of the first occurrence of `pat` inside `l`. -/
def indexOfSub (l pat : List Char) : Option Nat :=
  if pat.isPrefixOf l then some 0
  else
    match l with
    | [] => none
    | _ :: t => (indexOfSub t pat).map (· + 1)

/-- Matching step for `/\/\*[\s\S]*?\*\//g` (block comment removal): at
`/*`, the lazy `[\s\S]*?` extends to the earliest following `*/`; without a
closing `*/` there is no match. -/
def stripBlockCommentsStep (_prev : Option Char) (l : List Char) :
    Option (List Char × Nat) :=
  match pTok "/*".data l with
  | none => none
  | some r =>
    match indexOfSub r "*/".data with
    | none => none
    | some i => some ([], 2 + i + 2 - 1)

/-- Matching step for `/\/\/.*$/gm` (line comment removal): `.` does not
match a newline, so the match runs from `//` to just before the next newline
(where the multiline `$` holds) or to the end of the string. -/
def stripLineCommentsStep (_prev : Option Char) (l : List Char) :
    Option (List Char × Nat) :=
  match pTok "//".data l with
  | none => none
  | some r => some ([], 2 + (r.takeWhile (fun c => c != '\n')).length - 1)

/-- Matching step for `/\s+/g → ' '` (whitespace collapsing). -/
def collapseWsStep (_prev : Option Char) (l : List Char) :
    Option (List Char × Nat) :=
  match l with
  | [] => none
  | c :: _ =>
    if isJsSpace c then some ([' '], (l.takeWhile isJsSpace).length - 1)
    else none

/-- Options record consumed by `optimizeForIOS`. -/
structure OptimizeOpts where
  optimizeForSize : Bool
  preservePerformance : Bool
deriving Repr, DecidableEq

/-- Minification part of `IOSTranslator.optimizeForIOS` (the three replaces
performed when `optimizeForSize` is set: strip block comments, strip line
comments, collapse whitespace runs to single spaces). -/
def iosMinify (code : String) : String :=
  jsReplace collapseWsStep
    (jsReplace stripLineCommentsStep (jsReplace stripBlockCommentsStep code))

/-- Embedding of `IOSTranslator.optimizeForIOS`: minify when requested, then
truncate to `maxCodeSize - 100` characters plus the `\n// TRUNCATED` marker
whenever the (possibly minified) code is still longer than `maxCodeSize`.
Note the size check runs regardless of `optimizeForSize`.  JavaScript
`substring` counts UTF-16 units; the embedding counts characters, which
agrees on ASCII code. -/
def optimizeForIOS (code : String) (options : OptimizeOpts) : String :=
  let optimizedCode := if options.optimizeForSize then iosMinify code else code
  if optimizedCode.length > maxCodeSize then
    String.mk (optimizedCode.data.take (maxCodeSize - 100)) ++ "\n// TRUNCATED"
  else optimizedCode

/-- Text of the iOS execution wrapper template before the `${code}` splice
(transcribed byte-for-byte from `wrapForIOSExecution`). -/
def wrapHead : String :=
  "\n// JITPhone iOS Execution Wrapper\n(function() \x7b\n  \x27use strict\x27;\n  \n" ++
  "  var startTime = Date.now();\n  var result = null;\n  var error = null;\n  \n" ++
  "  try \x7b\n    // Set up iOS-safe environment\n    var safeGlobal = \x7b\n" ++
  "      Math: Math,\n      Date: Date,\n      JSON: JSON,\n      Array: Array,\n" ++
  "      Object: Object,\n      String: String,\n      Number: Number,\n" ++
  "      Boolean: Boolean,\n      console: console\n    \x7d;\n    \n" ++
  "    // Execute in controlled context\n    (function() \x7b\n      "

/-- Text of the wrapper template between the `${code}` and `${target}`
splices. -/
def wrapMid : String :=
  "\n    \x7d).call(safeGlobal);\n    \n  \x7d catch (e) \x7b\n    error = \x7b\n" ++
  "      message: e.message,\n      name: e.name,\n      stack: e.stack\n    \x7d;\n  \x7d\n  \n" ++
  "  var executionTime = Date.now() - startTime;\n  \n" ++
  "  // Return standardized result for iOS\n  return \x7b\n    success: error === null,\n" ++
  "    result: result,\n    error: error,\n    executionTime: executionTime,\n    target: \x27"

/-- Text of the wrapper template after the `${target}` splice. -/
def wrapTail : String :=
  "\x27,\n    jitphone: true\n  \x7d;\n\x7d)();\n    "

/-- Embedding of `IOSTranslator.wrapForIOSExecution`. -/
def wrapForIOSExecution (code target : String) : String :=
  wrapHead ++ code ++ wrapMid ++ target ++ wrapTail

/-- Composition of translate steps 5 and 6 (`optimizeForIOS` then
`wrapForIOSExecution`), which produces the final `result.code` of
`IOSTranslator.translate` from the target-adapted code. -/
def translateFinalCode (adapted : String) (target : String)
    (options : OptimizeOpts) : String :=
  wrapForIOSExecution (optimizeForIOS adapted options) target

/-- Embedding of the MD5 pre-image built by
`IOSTranslator.generateCacheKey`:
`JSON.stringify({ code, options, timestamp: Math.floor(Date.now() / (1000*60*60)) })`.
The wall clock `Date.now()` (milliseconds) is passed explicitly; the options
object is abstracted by its JSON serialization.  The cache key is the MD5
digest of this string, a fixed deterministic function of it. -/
def generateCacheKeyInput (code optionsJson : String) (nowMs : Nat) : String :=
  String.mk ([JS.obraceC] ++ "\x22code\x22:".data ++
    (JITEngine.jsonString code).data ++
    ",\x22options\x22:".data ++ optionsJson.data ++
    ",\x22timestamp\x22:".data ++ (toString (nowMs / 3600000)).data ++
    [JS.cbraceC])

end IOSTranslator

namespace JITConverter

open JS

/-- Instruction record of the intermediate representation built by the
format-bridge lowering functions (`{ op, args, type, original }`; the `type`
and `original` metadata fields are carried verbatim). -/
structure ConvInstruction where
  op : String
  args : List String
  ty : String := ""
  original : String := ""
deriving Repr, DecidableEq

/-- Function record of the bridge intermediate representation. -/
structure FuncIR where
  name : String
  instructions : List ConvInstruction
  optimizations : List String
deriving Repr, DecidableEq

/-- Intermediate representation returned by each lowering function.  The
`metadata` object of the source (source format tag repeated, option echoes)
is not modelled; no claim observes it. -/
structure Intermediate where
  ty : String
  functions : List FuncIR
deriving Repr, DecidableEq

/-- Parse a `%`-register token `(%\w+)`; the capture includes the `%`. -/
def pPercentWord (l : List Char) : Option (List Char × List Char) := do
  let r ← pTok "%".data l
  let (w, rest) ← pWord r
  pure ('%' :: w, rest)

/-- Try `@(\w+)\s*\(` at the current position. -/
def defineAtWord (l : List Char) : Option (List Char) := do
  let r ← pTok "@".data l
  let (w, r2) ← pWord r
  let _ ← pTok "(".data (pWs r2)
  pure w

/-- Walk the rest of the line keeping the rightmost successful capture of
`@(\w+)\s*\(` preceded by a whitespace character (the greedy `.*` of the
`define` pattern selects the last candidate). -/
def defineScanLast : List Char → Option (List Char) → Option (List Char)
  | [], acc => acc
  | c :: t, acc =>
    let acc2 :=
      if isJsSpace c then
        match defineAtWord t with
        | some w => some w
        | none => acc
      else acc
    defineScanLast t acc2

/-- Matcher for `/define\s+.*\s+@(\w+)\s*\(/` on one (trimmed) line: after
`define` and one whitespace run, the greedy `.*` makes the match use the
*last* position where ` @name(` occurs; at least two whitespace characters
must separate `define` from `@`.  Returns the captured function name. -/
def defineMatch (line : List Char) : Option (List Char) := do
  let r1 ← pTok "define".data line
  let _ ← pWsPlus r1
  defineScanLast r1 none

/-- Embedding of `parseIOSOptimizations`. -/
def parseIOSOptimizations (line : String) : List String :=
  (if jsIncludes line "inlinehint" then ["inline"] else []) ++
  (if jsIncludes line "optsize" then ["size"] else []) ++
  (if jsIncludes line "minsize" then ["minsize"] else [])

/-- Matcher for `/(%\w+)\s*=\s*load.*?(%\w+)/` at one position. -/
def loadAt (l : List Char) : Option (List String) := do
  let (g1, r1) ← pPercentWord l
  let r2 ← pTok "=".data (pWs r1)
  let r3 ← pTok "load".data (pWs r2)
  let (g2, _) ← scanFirst pPercentWord r3
  pure [String.mk g1, String.mk g2]

/-- Matcher for `/store.*?(%\w+).*?(%\w+)/` (leftmost `store`; the lazy gaps
take the first following register tokens). -/
def storeMatch (l : List Char) : Option (List String) := do
  let r1 ← scanFirst (pTok "store".data) l
  let (g1, r2) ← scanFirst pPercentWord r1
  let (g2, _) ← scanFirst pPercentWord r2
  pure [String.mk g1, String.mk g2]

/-- Parse `(%\w+),\s*(%\w+)` at the current position. -/
def addArgsAt (t : List Char) : Option (List Char × List Char) := do
  let (g2, r) ← pPercentWord t
  let r2 ← pTok ",".data r
  let (g3, _) ← pPercentWord (pWs r2)
  pure (g2, g3)

/-- Matcher for `/(%\w+)\s*=\s*add.*?(%\w+),\s*(%\w+)/` at one position. -/
def addAt (l : List Char) : Option (List String) := do
  let (g1, r1) ← pPercentWord l
  let r2 ← pTok "=".data (pWs r1)
  let r3 ← pTok "add".data (pWs r2)
  let (g2, g3) ← scanFirst addArgsAt r3
  pure [String.mk g1, String.mk g2, String.mk g3]

/-- Parse `@(\w+)` at the current position. -/
def atWordAt (t : List Char) : Option (List Char × List Char) := do
  let r ← pTok "@".data t
  pWord r

/-- Matcher for `/call.*?@(\w+)/`. -/
def callMatch (l : List Char) : Option (List String) := do
  let r1 ← scanFirst (pTok "call".data) l
  let (g, _) ← scanFirst atWordAt r1
  pure [String.mk g]

/-- Matcher for `/ret.*?(%\w+)?/`: it succeeds on any line containing `ret`;
the lazy gap and the optional group make the capture defined only when a
register token directly follows the `ret` (`args` keeps only defined
captures, via `filter(Boolean)`). -/
def retMatch (l : List Char) : Option (List String) := do
  let r1 ← scanFirst (pTok "ret".data) l
  match pPercentWord r1 with
  | some (g, _) => pure [String.mk g]
  | none => pure []

/-- Embedding of `parseIOSInstruction`: the five patterns are tried in the
object-literal order `load, store, add, call, ret`; the first match decides
the opcode. -/
def parseIOSInstruction (line : String) : Option ConvInstruction :=
  match scanFirst loadAt line.data with
  | some args => some { op := "load", args, ty := "llvm", original := line }
  | none =>
    match storeMatch line.data with
    | some args => some { op := "store", args, ty := "llvm", original := line }
    | none =>
      match scanFirst addAt line.data with
      | some args => some { op := "add", args, ty := "llvm", original := line }
      | none =>
        match callMatch line.data with
        | some args => some { op := "call", args, ty := "llvm", original := line }
        | none =>
          match retMatch line.data with
          | some args => some { op := "ret", args, ty := "llvm", original := line }
          | none => none

/-- State of the `convertIOSLLVM` line loop: functions already closed, and
the function currently receiving instructions (the source mutates the last
pushed element of `intermediate.functions`). -/
def iosLLVMLine (st : List FuncIR × Option FuncIR) (line : String) :
    List FuncIR × Option FuncIR :=
  let trimmed := line.trim
  if jsStartsWith trimmed "define" then
    match defineMatch trimmed.data with
    | some name =>
        (st.1 ++ st.2.toList,
         some { name := String.mk name, instructions := [],
                optimizations := parseIOSOptimizations trimmed })
    | none => st
  else
    match st.2 with
    | some f =>
      if trimmed.data.isEmpty then st
      else
        match parseIOSInstruction trimmed with
        | some inst => (st.1, some { f with instructions := f.instructions ++ [inst] })
        | none => st
    | none => st

/-- Embedding of `convertIOSLLVM`. -/
def convertIOSLLVM (llvmIR : String) : Intermediate :=
  let st := (jsSplitChar '\n' llvmIR).foldl iosLLVMLine ([], none)
  { ty := "ios-llvm", functions := st.1 ++ st.2.toList }

/-- Embedding of `convertARTInstruction`. -/
def convertARTInstruction (inst : ConvInstruction) : ConvInstruction :=
  if inst.op == "invoke-virtual" then { op := "call", args := inst.args }
  else if inst.op == "return-void" then { op := "return", args := [] }
  else if inst.op == "move" then { op := "store", args := inst.args }
  else { op := "unknown", args := inst.args }

/-- Embedding of `parseARTMethods` (a fixed stub method). -/
def parseARTMethods (_artBytecode : String) : List FuncIR :=
  [{ name := "methodFromART",
     instructions :=
      [{ op := "invoke-virtual", args := ["v0", "method"] },
       { op := "return-void", args := [] }],
     optimizations := ["inline", "devirtualize"] }]

/-- Embedding of `convertAndroidART`. -/
def convertAndroidART (artBytecode : String) : Intermediate :=
  { ty := "android-art"
    functions := (parseARTMethods artBytecode).map (fun m =>
      { name := m.name
        instructions := m.instructions.map convertARTInstruction
        optimizations := m.optimizations }) }

/-- Matching step for `/\(func[^)]*\)/g` used by `parseWASMFunctions`. -/
def wasmFuncStep (_prev : Option Char) (l : List Char) : Option (List Char × Nat) := do
  let r1 ← pTok "(func".data l
  let r2 := r1.dropWhile (fun c => c != ')')
  let rest ← pTok ")".data r2
  some ([], l.length - rest.length - 1)

/-- Count the matches of `/\(func[^)]*\)/g` in the text (the contents of the
matches are not used by the source: every parsed function gets the same stub
instruction list). -/
def countWasmFuncs : Nat → List Char → Nat
  | 0, _ => 0
  | _, [] => 0
  | fuel + 1, c :: cs =>
    match wasmFuncStep none (c :: cs) with
    | some (_, k) => 1 + countWasmFuncs fuel (cs.drop k)
    | none => countWasmFuncs fuel cs

/-- Embedding of `parseWASMFunctions`. -/
def parseWASMFunctions (wasmText : String) : List FuncIR :=
  (List.range (countWasmFuncs wasmText.data.length wasmText.data)).map (fun i =>
    { name := "wasmFunc" ++ toString i
      instructions :=
        [{ op := "local.get", args := ["0"] }, { op := "i32.add", args := [] }]
      optimizations := [] })

/-- Embedding of `convertWASMInstruction`. -/
def convertWASMInstruction (inst : ConvInstruction) : ConvInstruction :=
  if inst.op == "local.get" then
    { op := "load", args := ["param" ++ inst.args.headD ""] }
  else if inst.op == "i32.add" then { op := "add", args := ["result", "a", "b"] }
  else if inst.op == "return" then { op := "return", args := ["result"] }
  else { op := "unknown", args := inst.args }

/-- Embedding of `convertWebAssembly` (string input path). -/
def convertWebAssembly (wasmText : String) : Intermediate :=
  { ty := "wasm"
    functions := (parseWASMFunctions wasmText).map (fun f =>
      { name := f.name
        instructions := f.instructions.map convertWASMInstruction
        optimizations := (["wasm-simd", "wasm-threads"].filter (fun opt =>
          jsIncludes wasmText (opt.drop 5))) }) }

/-- Embedding of `convertJavaHotSpot`: `parseHotSpotMethods` is the stub
`return []`, so the lowered function list is always empty. -/
def convertJavaHotSpot (_hotspotCode : String) : Intermediate :=
  { ty := "java-hotspot", functions := [] }

/-- Embedding of `convertDotNetCLR`: `parseILMethods` is the stub
`return []`. -/
def convertDotNetCLR (_clrIL : String) : Intermediate :=
  { ty := "dotnet-clr", functions := [] }

/-- Embedding of `convertV8Bytecode`: `parseV8Bytecode` is the stub
`return []`. -/
def convertV8Bytecode (_v8Bytecode : String) : Intermediate :=
  { ty := "v8-bytecode", functions := [] }

/-- Embedding of `convertGenericJSEngine` (used by the SpiderMonkey and
Chakra entries): an empty function list tagged with the engine name. -/
def convertGenericJSEngine (_bytecode : String) (engine : String) : Intermediate :=
  { ty := engine, functions := [] }

/-- Embedding of `convertAssembly`: `parseAssemblyFunctions` is the stub
`return []`. -/
def convertAssembly (_assembly : String) : Intermediate :=
  { ty := "assembly", functions := [] }

/-- Embedding of the `supportedFormats` registry, in constructor order. -/
def supportedFormats : List (String × (String → Intermediate)) :=
  [ ("ios-llvm", convertIOSLLVM),
    ("android-art", convertAndroidART),
    ("wasm", convertWebAssembly),
    ("java-hotspot", convertJavaHotSpot),
    ("dotnet-clr", convertDotNetCLR),
    ("v8-bytecode", convertV8Bytecode),
    ("spidermonkey", fun b => convertGenericJSEngine b "spidermonkey"),
    ("chakra", fun b => convertGenericJSEngine b "chakra"),
    ("assembly", convertAssembly) ]

/-- Keep-first deduplication, the embedding of `[...new Set(list)]` (JS sets
iterate in insertion order). -/
def addUnique (l : List String) (x : String) : List String :=
  if l.contains x then l else l ++ [x]

/-- Embedding of `consolidateOptimizations`. -/
def consolidateOptimizations (intermediate : Intermediate) : List String :=
  (intermediate.functions.flatMap FuncIR.optimizations).foldl addUnique []

/-- Embedding of `generateV8OptimizationHints`. -/
def generateV8OptimizationHints (intermediate : Intermediate) : String :=
  let optimizations := intermediate.functions.flatMap FuncIR.optimizations
  "// V8 Optimization Hints\n\x27use strict\x27;\n\n" ++
  (if optimizations.contains "inline" || optimizations.contains "inlining" then
    "// Enable function inlining\nfunction __enableInlining() \x7b return true; \x7d\n\n"
   else "") ++
  (if optimizations.contains "loop" || optimizations.contains "vectorize" then
    "// Enable loop optimizations\nfunction __enableLoopOpts() \x7b return true; \x7d\n\n"
   else "")

/-- Embedding of `convertInstructionToJS` (every branch returns a non-empty
string, so the caller's truthiness test always passes). -/
def convertInstructionToJS (inst : ConvInstruction) : String :=
  if inst.op == "load" then
    "var " ++ inst.args.getD 0 "undefined" ++ " = " ++ inst.args.getD 1 "undefined" ++ ";"
  else if inst.op == "store" then
    inst.args.getD 0 "undefined" ++ " = " ++ inst.args.getD 1 "undefined" ++ ";"
  else if inst.op == "add" then
    "var " ++ inst.args.getD 0 "undefined" ++ " = " ++ inst.args.getD 1 "undefined" ++
      " + " ++ inst.args.getD 2 "undefined" ++ ";"
  else if inst.op == "sub" then
    "var " ++ inst.args.getD 0 "undefined" ++ " = " ++ inst.args.getD 1 "undefined" ++
      " - " ++ inst.args.getD 2 "undefined" ++ ";"
  else if inst.op == "mul" then
    "var " ++ inst.args.getD 0 "undefined" ++ " = " ++ inst.args.getD 1 "undefined" ++
      " * " ++ inst.args.getD 2 "undefined" ++ ";"
  else if inst.op == "div" then
    "var " ++ inst.args.getD 0 "undefined" ++ " = " ++ inst.args.getD 1 "undefined" ++
      " / " ++ inst.args.getD 2 "undefined" ++ ";"
  else if inst.op == "call" then
    inst.args.getD 0 "undefined" ++ "(" ++ jsJoin ", " (inst.args.drop 1) ++ ");"
  else if inst.op == "return" then
    "return " ++ inst.args.getD 0 "" ++ ";"
  else if inst.op == "branch" then
    "if (" ++ inst.args.getD 0 "undefined" ++ ") \x7b /* branch logic */ \x7d"
  else if inst.op == "loop" then
    "for (var i = 0; i < " ++ inst.args.getD 0 "undefined" ++ "; i++) \x7b /* loop body */ \x7d"
  else
    "// Unknown instruction: " ++ inst.op

/-- Embedding of `inferParameters`: insertion-ordered set of the `load`
sources that start with `param`. -/
def inferParameters (instructions : List ConvInstruction) : List String :=
  instructions.foldl (fun params inst =>
    match inst.op == "load", inst.args.get? 1 with
    | true, some a => if jsStartsWith a "param" then addUnique params a else params
    | _, _ => params) []

/-- Embedding of `convertFunctionToJS`. -/
def convertFunctionToJS (f : FuncIR) (sourceType : String) : String :=
  let params := inferParameters f.instructions
  "// Function: " ++ f.name ++ " (from " ++ sourceType ++ ")\n" ++
  "function " ++ f.name ++ "(" ++ jsJoin ", " params ++ ") \x7b\n" ++
  jsJoin "" (f.instructions.map (fun i => "  " ++ convertInstructionToJS i ++ "\n")) ++
  "\x7d" ++
  (if f.optimizations.isEmpty then ""
   else "\n// Optimizations: " ++ jsJoin ", " f.optimizations)

/-- Embedding of `generatePerformanceWrapper` (a fixed string). -/
def generatePerformanceWrapper : String :=
  "\n// Performance measurement wrapper\n" ++
  "function measurePerformance(func, iterations = 1000) \x7b\n" ++
  "  const start = process.hrtime();\n" ++
  "  for (let i = 0; i < iterations; i++) \x7b\n    func();\n  \x7d\n" ++
  "  const [seconds, nanoseconds] = process.hrtime(start);\n" ++
  "  return (seconds * 1000) + (nanoseconds / 1000000);\n\x7d\n"

/-- Result record of `convertToNodeJS` (the `metadata` object with its
`Date.now()` stamp is not modelled; no claim observes it). -/
structure NodeJSResult where
  success : Bool
  code : String
  optimizations : List String
deriving Repr, DecidableEq

/-- Embedding of `convertToNodeJS`. -/
def convertToNodeJS (intermediate : Intermediate) : NodeJSResult :=
  { success := true
    code :=
      "// Generated by JITPhone JIT Converter\n" ++
      "// Source: " ++ intermediate.ty ++ "\n" ++
      "// Target: Node.js V8\n\n" ++
      generateV8OptimizationHints intermediate ++
      jsJoin "" (intermediate.functions.map (fun f =>
        convertFunctionToJS f intermediate.ty ++ "\n\n")) ++
      generatePerformanceWrapper
    optimizations := consolidateOptimizations intermediate }

/-- Embedding of `JITConverter.convert` on string instruction streams: an
unregistered source format throws before the cache key is even computed;
a registered format runs its lowering function and the shared emitter (both
total), caching aside.  The error message is transcribed from the source. -/
def convert (instructions : String) (sourceFormat : String) :
    Except String NodeJSResult :=
  match supportedFormats.lookup sourceFormat with
  | none =>
      .error ("Unsupported source format: " ++ sourceFormat ++ ". Supported: " ++
        jsJoin ", " (supportedFormats.map Prod.fst))
  | some lower => .ok (convertToNodeJS (lower instructions))

end JITConverter

namespace SwiftConverter

open JS

/-- Parser fragment `\s+([^X]+)` (whitespace then a greedy non-empty negated
class run): the class stops at the first excluded character; when the run
would be empty, regex backtracking shortens the greedy `\s+` by one character
so that the capture becomes that final whitespace character.  Returns the
capture and the rest of the input after it. -/
def pWsPlusUntil (stopP : Char → Bool) (l : List Char) :
    Option (List Char × List Char) :=
  let ws := l.takeWhile isJsSpace
  let rest := l.dropWhile isJsSpace
  if ws.isEmpty then none
  else
    let g := rest.takeWhile (fun c => !stopP c)
    if !g.isEmpty then some (g, rest.drop g.length)
    else if ws.length ≥ 2 then some (ws.drop (ws.length - 1), rest)
    else none

/-- Parser fragment `\s*([^X]+)`, with the same one-character giveback as
`pWsPlusUntil` when the class run would otherwise be empty. -/
def pWsStarUntil (stopP : Char → Bool) (l : List Char) :
    Option (List Char × List Char) :=
  let ws := l.takeWhile isJsSpace
  let rest := l.dropWhile isJsSpace
  let g := rest.takeWhile (fun c => !stopP c)
  if !g.isEmpty then some (g, rest.drop g.length)
  else if ws.length ≥ 1 then some (ws.drop (ws.length - 1), rest)
  else none

/-- Step for a plain global literal replacement (no regex metacharacters). -/
def litReplaceStep (pat rep : List Char) (_prev : Option Char) (l : List Char) :
    Option (List Char × Nat) :=
  if pat.isPrefixOf l then some (rep, pat.length - 1) else none

/-- Global literal replacement `str.replace(/LIT/g, rep)` for a pattern
without metacharacters. -/
def litReplace (pat rep : String) (s : String) : String :=
  jsReplace (litReplaceStep pat.data rep.data) s

/-- Step for `/(\w+)\.map\s*{\s*\$0\s*\*\s*(\d+)\s*}/g →
`$1.map(x => x * $2)`. -/
def mapClosureStep (_prev : Option Char) (l : List Char) : Option (List Char × Nat) := do
  let (w, r1) ← pWord l
  let r2 ← pTok ".map".data r1
  let r3 ← pTok [obraceC] (pWs r2)
  let r4 ← pTok "$0".data (pWs r3)
  let r5 ← pTok "*".data (pWs r4)
  let r6 := pWs r5
  let d := r6.takeWhile Char.isDigit
  if d.isEmpty then none
  else do
    let rest ← pTok [cbraceC] (pWs (r6.drop d.length))
    some (w ++ ".map(x => x * ".data ++ d ++ ")".data, l.length - rest.length - 1)

/-- Step for `/(\w+)\.filter\s*{\s*\$0\s*>\s*(\d+)\s*}/g →
`$1.filter(x => x > $2)`. -/
def filterClosureStep (_prev : Option Char) (l : List Char) : Option (List Char × Nat) := do
  let (w, r1) ← pWord l
  let r2 ← pTok ".filter".data r1
  let r3 ← pTok [obraceC] (pWs r2)
  let r4 ← pTok "$0".data (pWs r3)
  let r5 ← pTok ">".data (pWs r4)
  let r6 := pWs r5
  let d := r6.takeWhile Char.isDigit
  if d.isEmpty then none
  else do
    let rest ← pTok [cbraceC] (pWs (r6.drop d.length))
    some (w ++ ".filter(x => x > ".data ++ d ++ ")".data, l.length - rest.length - 1)

/-- Step for
`/=\s*{\s*\(([^)]*)\)\s*->\s*\w+\s+in\s+([^}]+)\s*}/g → `= ($1) => { $2 }`. -/
def closureAssignStep (_prev : Option Char) (l : List Char) : Option (List Char × Nat) := do
  let r1 ← pTok "=".data l
  let r2 ← pTok [obraceC] (pWs r1)
  let r3 ← pTok "(".data (pWs r2)
  let g1 := r3.takeWhile (fun c => c != ')')
  let r4 ← pTok ")".data (r3.drop g1.length)
  let r5 ← pTok "->".data (pWs r4)
  let (_, r6) ← pWord (pWs r5)
  let r7 ← pWsPlus r6
  let r8 ← pTok "in".data r7
  let (g2, r9) ← pWsPlusUntil (fun c => c == cbraceC) r8
  let rest ← pTok [cbraceC] r9
  some ("= (".data ++ g1 ++ ") => \x7b ".data ++ g2 ++ " \x7d".data,
    l.length - rest.length - 1)

/-- Range-ending parser, the fragment `\.\.\.?<`: two dots, an optional third
dot (greedy, with backtracking), then `<`. -/
def pRangeExclusive (l : List Char) : Option (List Char) := do
  let r1 ← pTok "..".data l
  match pTok ".<".data r1 with
  | some r2 => some r2
  | none => pTok "<".data r1

/-- Step for the two exclusive-range loop rewrites
`/for\s+(\w+)\s+in\s+(\d+|\w+)\.\.\.?<(\w+|\d+)\s*{/g →
`for (let $1 = $2; $1 < $3; $1++) {` — `numeric` selects the `(\d+)` start
variant (run first by the source), otherwise the `(\w+)` variant. -/
def forRangeExclStep (numeric : Bool) (_prev : Option Char) (l : List Char) :
    Option (List Char × Nat) := do
  let r1 ← pTok "for".data l
  let r2 ← pWsPlus r1
  let (v, r3) ← pWord r2
  let r4 ← pWsPlus r3
  let r5 ← pTok "in".data r4
  let r6 ← pWsPlus r5
  let lo := if numeric then r6.takeWhile Char.isDigit else r6.takeWhile isWordChar
  if lo.isEmpty then none
  else do
    let r7 ← pRangeExclusive (r6.drop lo.length)
    let (hi, r8) ← pWord r7
    let rest ← pTok [obraceC] (pWs r8)
    some ("for (let ".data ++ v ++ " = ".data ++ lo ++ "; ".data ++ v ++
      " < ".data ++ hi ++ "; ".data ++ v ++ "++) \x7b".data,
      l.length - rest.length - 1)

/-- Step for the two inclusive-range loop rewrites
`/for\s+(\w+)\s+in\s+(\d+|\w+)\.\.\.(\w+|\d+)\s*{/g →
`for (let $1 = $2; $1 <= $3; $1++) {`. -/
def forRangeInclStep (numeric : Bool) (_prev : Option Char) (l : List Char) :
    Option (List Char × Nat) := do
  let r1 ← pTok "for".data l
  let r2 ← pWsPlus r1
  let (v, r3) ← pWord r2
  let r4 ← pWsPlus r3
  let r5 ← pTok "in".data r4
  let r6 ← pWsPlus r5
  let lo := if numeric then r6.takeWhile Char.isDigit else r6.takeWhile isWordChar
  if lo.isEmpty then none
  else do
    let r7 ← pTok "...".data (r6.drop lo.length)
    let (hi, r8) ← pWord r7
    let rest ← pTok [obraceC] (pWs r8)
    some ("for (let ".data ++ v ++ " = ".data ++ lo ++ "; ".data ++ v ++
      " <= ".data ++ hi ++ "; ".data ++ v ++ "++) \x7b".data,
      l.length - rest.length - 1)

/-- Step for `/for\s+(\w+)\s+in\s+(\w+)\s*{/g → `for (const $1 of $2) {`. -/
def forInStep (_prev : Option Char) (l : List Char) : Option (List Char × Nat) := do
  let r1 ← pTok "for".data l
  let r2 ← pWsPlus r1
  let (v, r3) ← pWord r2
  let r4 ← pWsPlus r3
  let r5 ← pTok "in".data r4
  let r6 ← pWsPlus r5
  let (arr, r7) ← pWord r6
  let rest ← pTok [obraceC] (pWs r7)
  some ("for (const ".data ++ v ++ " of ".data ++ arr ++ ") \x7b".data,
    l.length - rest.length - 1)

/-- Step for
`/var\s+(\w+):\s*\w+\s*{\s*return\s+([^}]+)\s*}/g → `get $1() { return $2; }`. -/
def computedPropStep (_prev : Option Char) (l : List Char) : Option (List Char × Nat) := do
  let r1 ← pTok "var".data l
  let r2 ← pWsPlus r1
  let (name, r3) ← pWord r2
  let r4 ← pTok ":".data r3
  let (_, r5) ← pWord (pWs r4)
  let r6 ← pTok [obraceC] (pWs r5)
  let r7 ← pTok "return".data (pWs r6)
  let (g2, r8) ← pWsPlusUntil (fun c => c == cbraceC) r7
  let rest ← pTok [cbraceC] r8
  some ("get ".data ++ name ++ "() \x7b return ".data ++ g2 ++ "; \x7d".data,
    l.length - rest.length - 1)

/-- Step for `/throws\s*->\s*(\w+)/g → `` (removal). -/
def throwsRemovalStep (_prev : Option Char) (l : List Char) : Option (List Char × Nat) := do
  let r1 ← pTok "throws".data l
  let r2 ← pTok "->".data (pWs r1)
  let (_, rest) ← pWord (pWs r2)
  some ([], l.length - rest.length - 1)

/-- Step for `/throw\s+([^;\n]+)/g → `throw new Error("$1");`. -/
def throwStep (_prev : Option Char) (l : List Char) : Option (List Char × Nat) := do
  let r1 ← pTok "throw".data l
  let (g, rest) ← pWsPlusUntil (fun c => c == ';' || c == '\n') r1
  some ("throw new Error(\x22".data ++ g ++ "\x22);".data, l.length - rest.length - 1)

/-- Step for `/do\s*{/g → `try {`. -/
def doBlockStep (_prev : Option Char) (l : List Char) : Option (List Char × Nat) := do
  let r1 ← pTok "do".data l
  let rest ← pTok [obraceC] (pWs r1)
  some ("try \x7b".data, l.length - rest.length - 1)

/-- Step for `/}\s*catch\s+(\w+)\s*{/g →
`} catch (error) { if (error.message === "$1") {`. -/
def catchBlockStep (_prev : Option Char) (l : List Char) : Option (List Char × Nat) := do
  let r1 ← pTok [cbraceC] l
  let r2 ← pTok "catch".data (pWs r1)
  let r3 ← pWsPlus r2
  let (g, r4) ← pWord r3
  let rest ← pTok [obraceC] (pWs r4)
  some ("\x7d catch (error) \x7b if (error.message === \x22".data ++ g ++
    "\x22) \x7b".data, l.length - rest.length - 1)

/-- Step for the four variable-declaration rewrites
`/\b(let|var)\s+(\w+)(\s*:\s*\w+)?\s*=\s*([^;\n]+)/g`; `typed` selects the
variants with the `:\s*\w+` type annotation, `isLet` the `let` keyword, and
the replacement is `const $1 = $2;` or `let $1 = $2;`. -/
def varDeclStep (isLet : Bool) (typed : Bool) (prev : Option Char) (l : List Char) :
    Option (List Char × Nat) := do
  if !boundaryOk prev then none
  else do
    let kw := if isLet then "let" else "var"
    let r1 ← pTok kw.data l
    let r2 ← pWsPlus r1
    let (name, r3) ← pWord r2
    let r4 ← if typed then do
        let ra ← pTok ":".data (pWs r3)
        let (_, rb) ← pWord (pWs ra)
        pure rb
      else pure r3
    let r5 ← pTok "=".data (pWs r4)
    let (value, rest) ← pWsStarUntil (fun c => c == ';' || c == '\n') r5
    let head := if isLet then "const " else "let "
    some (head.data ++ name ++ " = ".data ++ value ++
      (if typed then ";".data else ";".data), l.length - rest.length - 1)

/-- Embedding of the `typeMappings` table (constructor insertion order). -/
def typeMappings : List (String × String) :=
  [ ("String", "String"), ("Int", "Number"), ("Double", "Number"),
    ("Float", "Number"), ("Bool", "Boolean"), ("Array", "Array"),
    ("Dictionary", "Object"), ("Set", "Set"), ("Optional", "null"),
    ("Any", "any"), ("AnyObject", "Object"), ("Void", "void"),
    ("nil", "null"), ("true", "true"), ("false", "false") ]

/-- The type-substitution stage of `convertMethodBody`: one whole-word global
replace per `typeMappings` entry, in insertion order. -/
def typeMappingsPass (s : String) : String :=
  typeMappings.foldl (fun acc p => wordReplace p.1 p.2 acc) s

/-- Positions (indices) of the literal `\(` inside a character list. -/
def interpCandidates : List Char → Nat → List Nat
  | [], _ => []
  | c :: cs, i =>
    match cs with
    | c2 :: _ =>
      if c == JS.bslashC && c2 == '(' then i :: interpCandidates cs (i + 1)
      else interpCandidates cs (i + 1)
    | [] => []

/-- Try the tail of the interpolation pattern at candidate position `p` of
the quote-free run: `\(` at `p`, then `([^)]+)`, `)`, `([^"]*)`, `"`. -/
def interpTryAt (l : List Char) (p : Nat) : Option (List Char × Nat) :=
  let g1 := (l.drop 1).take p
  let after := l.drop (1 + p + 2)
  let g2 := after.takeWhile (fun c => c != ')')
  if g2.isEmpty then none
  else
    match pTok ")".data (after.drop g2.length) with
    | none => none
    | some r =>
      let g3 := r.takeWhile (fun c => c != JS.dquoteC)
      match pTok [JS.dquoteC] (r.drop g3.length) with
      | none => none
      | some rest =>
        some ([btickC] ++ g1 ++ ['$', obraceC] ++ g2 ++ [cbraceC] ++ g3 ++ [btickC],
          l.length - rest.length - 1)

/-- Try interpolation candidates right to left (the greedy `([^"]*)` prefers
the rightmost `\(` inside the quote-free run). -/
def interpTryList (l : List Char) : List Nat → Option (List Char × Nat)
  | [] => none
  | p :: ps =>
    match interpTryAt l p with
    | some r => some r
    | none => interpTryList l ps

/-- Step for the string-interpolation rewrite
`/"([^"]*)\\\(([^)]+)\)([^"]*)"/g → `` `$1${$2}$3` ``: at an opening quote,
the greedy `([^"]*)` selects the last `\(` inside the quote-free run whose
continuation (`([^)]+)`, `)`, `([^"]*)`, `"`) succeeds. -/
def interpStep (_prev : Option Char) (l : List Char) : Option (List Char × Nat) :=
  match l with
  | [] => none
  | c :: t =>
    if c != JS.dquoteC then none
    else
      let run := t.takeWhile (fun x => x != JS.dquoteC)
      interpTryList l (interpCandidates run 0).reverse

/-- Step for `/(\w+)\s*\?\?\s*([^,\n;]+)/g →
`($1 !== null && $1 !== undefined) ? $1 : $2`. -/
def nilCoalescingStep (_prev : Option Char) (l : List Char) : Option (List Char × Nat) := do
  let (w, r1) ← pWord l
  let r2 ← pTok "??".data (pWs r1)
  let (g2, rest) ← pWsStarUntil (fun c => c == ',' || c == '\n' || c == ';') r2
  some ("(".data ++ w ++ " !== null && ".data ++ w ++ " !== undefined) ? ".data ++
    w ++ " : ".data ++ g2, l.length - rest.length - 1)

/-- Step for `/(\w+)!/g → `$1` (force-unwrap removal). -/
def forceUnwrapStep (_prev : Option Char) (l : List Char) : Option (List Char × Nat) := do
  let (w, r1) ← pWord l
  let rest ← pTok "!".data r1
  some (w, l.length - rest.length - 1)

/-- Search, right to left, for the largest split point `q` of the brace-free
run such that the tail from `q` is `\s+else\s*` reaching exactly the end of
the run. -/
def guardSplit (run : List Char) : Nat → Option Nat
  | 0 => none
  | q + 1 =>
    let tail := run.drop (q + 1)
    match pWsPlus tail with
    | some t2 =>
      match pTok "else".data t2 with
      | some t3 => if (pWs t3).isEmpty then some (q + 1) else guardSplit run q
      | none => guardSplit run q
    | none => guardSplit run q

/-- Attempt the guard pattern with exactly `wsLen` characters consumed by
the leading `\s+`: the brace-free run after them must split as
`([^{]+)\s+else\s*` reaching the `{`.  Returns the condition capture and the
rest from the `{`. -/
def guardAttempt (r1 : List Char) (wsLen : Nat) : Option (List Char × List Char) :=
  let afterWs := r1.drop wsLen
  let run := afterWs.takeWhile (fun c => c != obraceC)
  match guardSplit run run.length with
  | some q => some (run.take q, afterWs.drop run.length)
  | none => none

/-- Backtracking loop over the length of the leading `\s+` of the guard
pattern (greedy: longest first). -/
def guardWsLoop (r1 : List Char) : Nat → Option (List Char × List Char)
  | 0 => none
  | w + 1 =>
    match guardAttempt r1 (w + 1) with
    | some x => some x
    | none => guardWsLoop r1 w

/-- Step for `/guard\s+([^{]+)\s+else\s*{([^}]+)}/g → `if (!($1)) { $2 }`:
the greedy `([^{]+)` must end, inside the brace-free run, exactly before a
`\s+else\s*` tail abutting the `{`; the rightmost such split is taken, and
the leading `\s+` backtracks (shortens) when no split exists. -/
def guardStep (_prev : Option Char) (l : List Char) : Option (List Char × Nat) := do
  let r1 ← pTok "guard".data l
  let maxWs := (r1.takeWhile isJsSpace).length
  let (g1, afterRun) ← guardWsLoop r1 maxWs
  let r3 ← pTok [obraceC] afterRun
  let (g2, r4) ← pWsStarUntil (fun c => c == cbraceC) r3
  let rest ← pTok [cbraceC] r4
  some ("if (!(".data ++ g1 ++ ")) \x7b ".data ++ g2 ++ " \x7d".data,
    l.length - rest.length - 1)

/-- Step for `/if\s+let\s+(\w+)\s*=\s*([^{]+)\s*{/g →
`if (($1 = $2) !== null && $1 !== undefined) {`. -/
def ifLetStep (_prev : Option Char) (l : List Char) : Option (List Char × Nat) := do
  let r1 ← pTok "if".data l
  let r2 ← pWsPlus r1
  let r3 ← pTok "let".data r2
  let r4 ← pWsPlus r3
  let (w, r5) ← pWord r4
  let r6 ← pTok "=".data (pWs r5)
  let (g2, r7) ← pWsStarUntil (fun c => c == obraceC) r6
  let rest ← pTok [obraceC] r7
  some ("if ((".data ++ w ++ " = ".data ++ g2 ++ ") !== null && ".data ++ w ++
    " !== undefined) \x7b".data, l.length - rest.length - 1)

/-- Step for `/(\w+)\.count/g → `$1.length`. -/
def countPropStep (_prev : Option Char) (l : List Char) : Option (List Char × Nat) := do
  let (w, r1) ← pWord l
  let rest ← pTok ".count".data r1
  some (w ++ ".length".data, l.length - rest.length - 1)

/-- Step for `/(\w+)\.isEmpty/g → `($1.length === 0)`. -/
def isEmptyPropStep (_prev : Option Char) (l : List Char) : Option (List Char × Nat) := do
  let (w, r1) ← pWord l
  let rest ← pTok ".isEmpty".data r1
  some ("(".data ++ w ++ ".length === 0)".data, l.length - rest.length - 1)

/-- Step for `/(\w+)\.contains\s*\(\s*([^)]+)\s*\)/g → `$1.includes($2)`. -/
def containsCallStep (_prev : Option Char) (l : List Char) : Option (List Char × Nat) := do
  let (w, r1) ← pWord l
  let r2 ← pTok ".contains".data r1
  let r3 ← pTok "(".data (pWs r2)
  let (g2, r4) ← pWsStarUntil (fun c => c == ')') r3
  let rest ← pTok ")".data r4
  some (w ++ ".includes(".data ++ g2 ++ ")".data, l.length - rest.length - 1)

/-- Embedding of the `methodMappings` table (constructor insertion order). -/
def methodMappings : List (String × String) :=
  [ ("append", "push"), ("removeFirst", "shift"), ("removeLast", "pop"),
    ("insert", "splice"), ("remove", "splice"), ("count", "length"),
    ("isEmpty", "length === 0"), ("first", "[0]"), ("last", "[arr.length - 1]") ]

/-- The method-mapping stage of `convertMethodBody`: one literal global
replace `.NAME(` to `.JSNAME(` per `methodMappings` entry, in order. -/
def methodMappingsPass (s : String) : String :=
  methodMappings.foldl (fun acc p => litReplace ("." ++ p.1 ++ "(") ("." ++ p.2 ++ "(") acc) s

/-- Step for `/print\s*\(/g → `console.log(`. -/
def printCallStep (_prev : Option Char) (l : List Char) : Option (List Char × Nat) := do
  let r1 ← pTok "print".data l
  let rest ← pTok "(".data (pWs r1)
  some ("console.log(".data, l.length - rest.length - 1)

/-- Step for `/\bself\./g → `this.`. -/
def selfDotStep (prev : Option Char) (l : List Char) : Option (List Char × Nat) :=
  if boundaryOk prev then
    match pTok "self.".data l with
    | some _ => some ("this.".data, 4)
    | none => none
  else none

/-- Step for the two increment/decrement rewrites `/(\w+)\s*[+-]\=\s*1/g →
`$1++` and `$1--`. -/
def incDecStep (plus : Bool) (_prev : Option Char) (l : List Char) :
    Option (List Char × Nat) := do
  let (w, r1) ← pWord l
  let opTok := if plus then "+=" else "-="
  let r2 ← pTok opTok.data (pWs r1)
  let rest ← pTok "1".data (pWs r2)
  some (w ++ (if plus then "++".data else "--".data), l.length - rest.length - 1)

/-- Step for `/KW\s+([^{]+)\s*{/g → `KW ($1) {` (the `if`/`while` rewrites;
`else if` uses the two-keyword variant below). -/
def kwParenStep (kw : String) (_prev : Option Char) (l : List Char) :
    Option (List Char × Nat) := do
  let r1 ← pTok kw.data l
  let (g, r2) ← pWsPlusUntil (fun c => c == obraceC) r1
  let rest ← pTok [obraceC] r2
  some ((kw ++ " (").data ++ g ++ ") \x7b".data, l.length - rest.length - 1)

/-- Step for `/else\s+if\s+([^{]+)\s*{/g → `else if ($1) {`. -/
def elseIfParenStep (_prev : Option Char) (l : List Char) : Option (List Char × Nat) := do
  let r1 ← pTok "else".data l
  let r2 ← pWsPlus r1
  let r3 ← pTok "if".data r2
  let (g, r4) ← pWsPlusUntil (fun c => c == obraceC) r3
  let rest ← pTok [obraceC] r4
  some ("else if (".data ++ g ++ ") \x7b".data, l.length - rest.length - 1)

/-- Step for `/([^;{}\n])\n/g → `$1;\n` (statement termination). -/
def stmtTerminationStep (_prev : Option Char) (l : List Char) : Option (List Char × Nat) :=
  match l with
  | c :: '\n' :: _ =>
    if c == ';' || c == obraceC || c == cbraceC || c == '\n' then none
    else some ([c, ';', '\n'], 1)
  | _ => none

/-- Attempt the return-termination pattern with exactly `wsLen` characters
consumed by `\s+`: the greedy `([^;\n]+)` keeps its full run when the
negative lookahead `(?![;\n])` holds after it (next character outside the
class, or end of input), and gives back exactly one character otherwise
(every shorter prefix would also satisfy the lookahead, so greediness stops
at the first giveback; a run of length one cannot give back). -/
def returnTermAttempt (r1 : List Char) (wsLen : Nat) :
    Option (List Char × List Char) :=
  let afterWs := r1.drop wsLen
  let g0 := afterWs.takeWhile (fun c => !(c == ';' || c == '\n'))
  if g0.isEmpty then none
  else
    match afterWs.drop g0.length with
    | [] => some (g0, [])
    | c :: rest =>
      if c == ';' || c == '\n' then
        if g0.length ≥ 2 then some (g0.dropLast, afterWs.drop (g0.length - 1))
        else none
      else some (g0, c :: rest)

/-- Backtracking loop over the length of the `\s+` of the return-termination
pattern (greedy: longest first; on failure the whitespace run shortens and
the surrendered whitespace joins the capture). -/
def returnTermWsLoop (r1 : List Char) : Nat → Option (List Char × List Char)
  | 0 => none
  | w + 1 =>
    match returnTermAttempt r1 (w + 1) with
    | some x => some x
    | none => returnTermWsLoop r1 w

/-- Step for `/return\s+([^;\n]+)(?![;\n])/g → `return $1;`. -/
def returnTerminationStep (_prev : Option Char) (l : List Char) :
    Option (List Char × Nat) := do
  let r1 ← pTok "return".data l
  let maxWs := (r1.takeWhile isJsSpace).length
  let (g, rest) ← returnTermWsLoop r1 maxWs
  some ("return ".data ++ g ++ ";".data, l.length - rest.length - 1)

end SwiftConverter

namespace SwiftConverter

open JS

/-- The `optionalChaining` rewrite `/(\w+)\?\./g → `$1?.``: the replacement
equals the matched text, so the pass is the identity on every string. -/
def optionalChainingPass (code : String) : String := code

/-- The `superCall` rewrite `/super\.(\w+)/g → `super.$1``: the replacement
equals the matched text, so the pass is the identity on every string. -/
def superCallPass (code : String) : String := code

/-- The ordered pass pipeline of `SwiftConverter.convertMethodBody`: one
entry per rewrite statement of the source, in source order, paired with a
descriptive pass name used by the ordering theorems. -/
def convertMethodBodyPasses : List (String × (String → String)) :=
  [ ("mapClosure", jsReplace mapClosureStep),
    ("filterClosure", jsReplace filterClosureStep),
    ("closureAssignment", jsReplace closureAssignStep),
    ("forRangeExclusiveNumeric", jsReplace (forRangeExclStep true)),
    ("forRangeExclusiveVariable", jsReplace (forRangeExclStep false)),
    ("forRangeInclusiveNumeric", jsReplace (forRangeInclStep true)),
    ("forRangeInclusiveVariable", jsReplace (forRangeInclStep false)),
    ("forInArray", jsReplace forInStep),
    ("computedProperty", jsReplace computedPropStep),
    ("throwsRemoval", jsReplace throwsRemovalStep),
    ("throwStatement", jsReplace throwStep),
    ("doBlock", jsReplace doBlockStep),
    ("catchBlock", jsReplace catchBlockStep),
    ("letTypedDecl", jsReplace (varDeclStep true true)),
    ("varTypedDecl", jsReplace (varDeclStep false true)),
    ("letDecl", jsReplace (varDeclStep true false)),
    ("varDecl", jsReplace (varDeclStep false false)),
    ("typeMappings", typeMappingsPass),
    ("stringInterpolation", jsReplace interpStep),
    ("optionalChaining", optionalChainingPass),
    ("nilCoalescing", jsReplace nilCoalescingStep),
    ("forceUnwrap", jsReplace forceUnwrapStep),
    ("guardStatement", jsReplace guardStep),
    ("ifLet", jsReplace ifLetStep),
    ("countProperty", jsReplace countPropStep),
    ("isEmptyProperty", jsReplace isEmptyPropStep),
    ("containsCall", jsReplace containsCallStep),
    ("methodMappings", methodMappingsPass),
    ("printCall", jsReplace printCallStep),
    ("selfDot", jsReplace selfDotStep),
    ("selfKeyword", wordReplace "self" "this"),
    ("superCall", superCallPass),
    ("incrementOperator", jsReplace (incDecStep true)),
    ("decrementOperator", jsReplace (incDecStep false)),
    ("ifParen", jsReplace (kwParenStep "if")),
    ("whileParen", jsReplace (kwParenStep "while")),
    ("elseIfParen", jsReplace elseIfParenStep),
    ("statementTermination", jsReplace stmtTerminationStep),
    ("returnTermination", jsReplace returnTerminationStep),
    ("doubleSemicolon", litReplace ";;" ";") ]

/-- Embedding of `SwiftConverter.convertMethodBody`: an empty (or missing)
body becomes `return null;`, otherwise the rewrite passes run in pipeline
order, and an empty final result also falls back to `return null;`. -/
def convertMethodBody (body : String) : String :=
  if body.data.isEmpty then "return null;"
  else
    let jsBody := convertMethodBodyPasses.foldl (fun s p => p.2 s) body
    if jsBody.data.isEmpty then "return null;" else jsBody

/-- Embedding of JavaScript `String.prototype.trim` (over the modelled ASCII
whitespace set). -/
def jsTrim (s : String) : String :=
  String.mk (((s.data.dropWhile isJsSpace).reverse.dropWhile isJsSpace).reverse)

/-- Count the occurrences of a character (`(line.match(/c/g) || []).length`). -/
def countChar (s : String) (c : Char) : Nat := s.data.count c

/-- Index of the first occurrence of a character (`indexOf`; 0 when absent,
which the sources never rely on because they test `includes` first). -/
def idxOfChar (l : List Char) (c : Char) : Nat :=
  ((l.takeWhile (fun x => x != c)).length)

/-- Index of the last occurrence of a character (`lastIndexOf`; 0 when
absent, same caveat as `idxOfChar`). -/
def lastIdxOfChar (l : List Char) (c : Char) : Nat :=
  l.length - 1 - idxOfChar l.reverse c

/-- Replace the element at an index (no-op when out of range), the embedding
of mutating one element of a JavaScript array. -/
def listModify (l : List α) (i : Nat) (f : α → α) : List α :=
  match l, i with
  | [], _ => []
  | x :: t, 0 => f x :: t
  | x :: t, n + 1 => x :: listModify t n f

/-- Try the alternatives of a modifier group `(?:WORD1\s+|WORD2\s+|...)` in
order at the current position. -/
def tryMod (mods : List String) (l : List Char) : Option (List Char) :=
  match mods with
  | [] => none
  | m :: ms =>
    match (pTok m.data l).bind pWsPlus with
    | some r => some r
    | none => tryMod ms l

/-- Greedy star over a modifier group, `(?:WORD\s+|...)*`; fuelled by the
input length (each iteration consumes at least two characters). -/
def consumeModsF (mods : List String) : Nat → List Char → List Char
  | 0, l => l
  | fuel + 1, l =>
    match tryMod mods l with
    | some r => consumeModsF mods fuel r
    | none => l

/-- Greedy star over a modifier group starting from the current position. -/
def consumeMods (mods : List String) (l : List Char) : List Char :=
  consumeModsF mods l.length l

/-- Split on commas and trim every piece (`.split(',').map(p => p.trim())`). -/
def splitCommaTrim (s : String) : List String :=
  (jsSplitChar ',' s).map jsTrim

/-- Parameter record of the Swift parser. -/
structure SwiftParam where
  externalName : String
  internalName : String
  ty : String
  defaultValue : Option String
deriving Repr, DecidableEq

/-- Function record of the Swift parser. -/
structure SwiftFunc where
  name : String
  parameters : List SwiftParam
  returnType : String
  body : String
  endLine : Nat
deriving Repr, DecidableEq

/-- Initializer record of the Swift parser. -/
structure SwiftInit where
  parameters : List SwiftParam
  body : String
  endLine : Nat
deriving Repr, DecidableEq

/-- Property record of the Swift parser (also used for free variables). -/
structure SwiftProperty where
  name : String
  ty : Option String
  isConstant : Bool
  initialValue : Option String
  getter : Option String
  setter : Option String
  endLine : Nat
deriving Repr, DecidableEq

/-- Enum case record of the Swift parser. -/
structure SwiftEnumCase where
  name : String
  value : Option String
deriving Repr, DecidableEq

/-- Class record of the Swift parser. -/
structure SwiftClassDecl where
  name : String
  superclass : Option String
  protocols : List String
  properties : List SwiftProperty
  methods : List SwiftFunc
  initializers : List SwiftInit
deriving Repr, DecidableEq

/-- Struct record of the Swift parser. -/
structure SwiftStructDecl where
  name : String
  protocols : List String
  properties : List SwiftProperty
  methods : List SwiftFunc
  initializers : List SwiftInit
deriving Repr, DecidableEq

/-- Enum record of the Swift parser. -/
structure SwiftEnumDecl where
  name : String
  rawType : Option String
  cases : List SwiftEnumCase
deriving Repr, DecidableEq

/-- Protocol record of the Swift parser. -/
structure SwiftProtoDecl where
  name : String
  inheritedProtocols : List String
  requirements : List SwiftFunc
deriving Repr, DecidableEq

/-- Extension record of the Swift parser. -/
structure SwiftExtDecl where
  extendedType : String
  protocols : List String
  methods : List SwiftFunc
deriving Repr, DecidableEq

/-- Closure record of the Swift parser. -/
structure SwiftClosure where
  parameters : String
  line : Nat
deriving Repr, DecidableEq

/-- The structured result of `parseSwift` (the IR Module of the spec).  The
`warnings` list is initialized empty by the source and is the subject of the
parser-robustness claim. -/
structure SwiftParseResult where
  imports : List String
  classes : List SwiftClassDecl
  structs : List SwiftStructDecl
  enums : List SwiftEnumDecl
  protocols : List SwiftProtoDecl
  extensions : List SwiftExtDecl
  functions : List SwiftFunc
  variableDecls : List SwiftProperty
  closures : List SwiftClosure
  warnings : List String
deriving Repr, DecidableEq

/-- The empty initial parse result. -/
def emptySwiftResult : SwiftParseResult :=
  ⟨[], [], [], [], [], [], [], [], [], []⟩

/-- Kind of an open declaration context. -/
inductive SwiftCtxKind where
  | cls | strct | enm | prot | ext
deriving Repr, DecidableEq

/-- An open declaration context: its kind plus the index of the record it
aliases inside the corresponding result list (the source keeps an object
reference; the embedding keeps the index). -/
structure SwiftCtx where
  kind : SwiftCtxKind
  idx : Nat
deriving Repr, DecidableEq

/-- Loop state of `parseSwift`: the result under construction, the context
stack (top at the end; `currentContext` always equals the top), and the
brace-depth counter. -/
structure SwiftState where
  result : SwiftParseResult
  contextStack : List SwiftCtx
  braceDepth : Int
deriving Repr, DecidableEq

/-- The tail of the common parameter pattern `(\w+)\s*:\s*([^=]+)` with the
optional default `(?:\s*=\s*(.+))?`. -/
def paramTail (l : List Char) : Option (List Char × List Char × Option (List Char)) := do
  let (w, r1) ← pWord l
  let r2 ← pTok ":".data (pWs r1)
  let (ty, r3) ← pWsStarUntil (fun c => c == '=') r2
  match pTok "=".data (pWs r3) with
  | some r4 =>
    match pWsStarUntil (fun _ => false) r4 with
    | some (d, _) => some (w, ty, some d)
    | none => some (w, ty, none)
  | none => some (w, ty, none)

/-- The parameter pattern with the optional leading external name present:
`(\w+)\s+` then the common tail. -/
def paramWithExt (l : List Char) :
    Option (Option (List Char) × List Char × List Char × Option (List Char)) := do
  let (ext, r1) ← pWord l
  let r2 ← pWsPlus r1
  let (w, ty, d) ← paramTail r2
  pure (some ext, w, ty, d)

/-- Matcher for the parameter pattern
`/(?:(\w+)\s+)?(\w+)\s*:\s*([^=]+)(?:\s*=\s*(.+))?/` at one position: the
optional leading external name is tried first (greedy), then dropped. -/
def paramAt (l : List Char) :
    Option (Option (List Char) × List Char × List Char × Option (List Char)) :=
  match paramWithExt l with
  | some x => some x
  | none =>
    match paramTail l with
    | some (w, ty, d) => some (none, w, ty, d)
    | none => none

/-- Embedding of `parseParameters`: split the parameter text on commas and
match each piece, falling back to the first word for pieces without a type
annotation. -/
def parseParameters (paramString : String) : List SwiftParam :=
  if (jsTrim paramString).data.isEmpty then []
  else
    (jsSplitChar ',' paramString).foldl (fun acc part =>
      let trimmed := (jsTrim part).data
      match scanFirst paramAt trimmed with
      | some (ext, w, ty, d) =>
        acc ++ [{ externalName := String.mk (ext.getD w)
                  internalName := String.mk w
                  ty := jsTrim (String.mk ty)
                  defaultValue := d.map (fun x => jsTrim (String.mk x)) }]
      | none =>
        match scanFirst pWord trimmed with
        | some (w, _) =>
          acc ++ [{ externalName := String.mk w, internalName := String.mk w,
                    ty := "Any", defaultValue := none }]
        | none => acc) []

/-- Modifier alternatives of the function pattern. -/
def funcMods : List String :=
  ["public", "private", "internal", "fileprivate", "open", "static", "class",
   "override", "final", "mutating"]

/-- Matcher for the function signature
`/(?:MODS)*func\s+(\w+)\s*\(([^)]*)\)(?:\s*->\s*([^{]+))?/` at one
position: returns the name, the raw parameter text and the optional return
type capture. -/
def funcSigAt (l : List Char) :
    Option (List Char × List Char × Option (List Char)) := do
  let r1 := consumeMods funcMods l
  let r2 ← pTok "func".data r1
  let r3 ← pWsPlus r2
  let (name, r4) ← pWord r3
  let r5 ← pTok "(".data (pWs r4)
  let ps := r5.takeWhile (fun c => c != ')')
  let r6 ← pTok ")".data (r5.drop ps.length)
  match pTok "->".data (pWs r6) with
  | some ra =>
    match pWsStarUntil (fun c => c == obraceC) ra with
    | some (rt, _) => some (name, ps, some rt)
    | none => some (name, ps, none)
  | none => some (name, ps, none)

/-- Body-collection loop of `parseFunction` over the lines after the
signature line: mirrors the `foundOpenBrace`/`braceDepth` state machine,
returning the collected body and the break line (if any). -/
def funcBodyLoop : List String → Nat → Bool → Int → String → String × Option Nat
  | [], _, _, _, body => (body, none)
  | cl :: rest, i, found, depth, body =>
    let found2 := found || jsIncludes cl "\x7b"
    if found2 then
      let depth2 := depth + (countChar cl obraceC : Int) - (countChar cl cbraceC : Int)
      if depth2 == 0 then
        let body2 :=
          if jsIncludes cl "\x7d" then
            let beforeBrace := String.mk (cl.data.take (lastIdxOfChar cl.data cbraceC))
            if (jsTrim beforeBrace).data.isEmpty then body else body ++ beforeBrace ++ "\n"
          else body
        (body2, some i)
      else funcBodyLoop rest (i + 1) true depth2 (body ++ cl ++ "\n")
    else funcBodyLoop rest (i + 1) found depth body

/-- Embedding of `parseFunction`: match the signature, then collect the body
with the single-line shortcut and the multi-line brace counting loop of the
source. -/
def parseFunction (line : String) (lines : List String) (startIndex : Nat) :
    Option SwiftFunc :=
  match scanFirst funcSigAt line.data with
  | none => none
  | some (name, ps, rt) =>
    let parameters := parseParameters (String.mk ps)
    let returnType := match rt with
      | some t => jsTrim (String.mk t)
      | none => "Void"
    if jsIncludes line "\x7b" then
      let depth0 : Int := (countChar line obraceC : Int) - (countChar line cbraceC : Int)
      let braceIdx := idxOfChar line.data obraceC
      let samLineBody := String.mk (line.data.drop (braceIdx + 1))
      if jsIncludes samLineBody "\x7d" && depth0 == 0 then
        some { name := String.mk name, parameters, returnType
               body := jsTrim (String.mk (samLineBody.data.take
                 (lastIdxOfChar samLineBody.data cbraceC)))
               endLine := startIndex }
      else
        let st := funcBodyLoop (lines.drop (startIndex + 1)) (startIndex + 1)
          true depth0 (samLineBody ++ "\n")
        some { name := String.mk name, parameters, returnType
               body := jsTrim st.1, endLine := st.2.getD startIndex }
    else
      let st := funcBodyLoop (lines.drop (startIndex + 1)) (startIndex + 1)
        false 0 ""
      some { name := String.mk name, parameters, returnType
             body := jsTrim st.1, endLine := st.2.getD startIndex }

/-- Matcher for the initializer signature
`/(?:public\s+|private\s+|internal\s+|convenience\s+|required\s+)*init\s*\(([^)]*)\)/`. -/
def initSigAt (l : List Char) : Option (List Char) := do
  let r1 := consumeMods ["public", "private", "internal", "convenience", "required"] l
  let r2 ← pTok "init".data r1
  let r3 ← pTok "(".data (pWs r2)
  let ps := r3.takeWhile (fun c => c != ')')
  let _ ← pTok ")".data (r3.drop ps.length)
  pure ps

/-- Body-collection loop of `parseInitializer` (runs from the signature line
itself; the opening-brace line is excluded from the body and the loop breaks
before appending the closing line). -/
def initBodyLoop : List String → Nat → Bool → Nat → Int → String → String × Option Nat
  | [], _, _, _, _, body => (body, none)
  | cl :: rest, i, found, bodyStart, depth, body =>
    let hasOpen := jsIncludes cl "\x7b"
    let found2 := found || hasOpen
    let bodyStart2 := if hasOpen && !found then i else bodyStart
    let depth2 := depth + (if hasOpen then (countChar cl obraceC : Int) else 0)
    if jsIncludes cl "\x7d" then
      let depth3 := depth2 - (countChar cl cbraceC : Int)
      if depth3 == 0 && found2 then (body, some i)
      else
        let body2 := if found2 && i > bodyStart2 then body ++ cl ++ "\n" else body
        initBodyLoop rest (i + 1) found2 bodyStart2 depth3 body2
    else
      let body2 := if found2 && i > bodyStart2 then body ++ cl ++ "\n" else body
      initBodyLoop rest (i + 1) found2 bodyStart2 depth2 body2

/-- Embedding of `parseInitializer`. -/
def parseInitDecl (line : String) (lines : List String) (startIndex : Nat) :
    Option SwiftInit :=
  match scanFirst initSigAt line.data with
  | none => none
  | some ps =>
    let st := initBodyLoop (lines.drop startIndex) startIndex false 0 0 ""
    some { parameters := parseParameters (String.mk ps)
           body := jsTrim st.1
           endLine := st.2.getD startIndex }

/-- Modifier alternatives of the property pattern. -/
def propMods : List String :=
  ["public", "private", "internal", "fileprivate", "open", "static", "lazy",
   "weak", "unowned"]

/-- Matcher for the keyword alternation `(var|let)` (`var` tried first). -/
def propKeyword (l : List Char) : Option (Bool × List Char) :=
  match pTok "var".data l with
  | some r => some (false, r)
  | none =>
    match pTok "let".data l with
    | some r => some (true, r)
    | none => none

/-- The optional type-annotation fragment `(?:\s*:\s*([^=\n{]+))?` of the
property pattern: returns the capture (if the group matches) and the rest. -/
def propTypeAnno (l : List Char) : Option (List Char) × List Char :=
  match pTok ":".data (pWs l) with
  | some ra =>
    match pWsStarUntil (fun c => c == '=' || c == '\n' || c == obraceC) ra with
    | some (t, rb) => (some t, rb)
    | none => (none, l)
  | none => (none, l)

/-- The optional initial-value fragment `(?:\s*=\s*([^{\n]+))?` of the
property pattern. -/
def propInitValue (l : List Char) : Option (List Char) :=
  match pTok "=".data (pWs l) with
  | some rb =>
    match pWsStarUntil (fun c => c == obraceC || c == '\n') rb with
    | some (v, _) => some v
    | none => none
  | none => none

/-- Matcher for the property declaration pattern
`/(?:MODS)*(var|let)\s+(\w+)(?:\s*:\s*([^=\n{]+))?(?:\s*=\s*([^{\n]+))?/`
at one position. -/
def propSigAt (l : List Char) :
    Option (Bool × List Char × Option (List Char) × Option (List Char)) := do
  let r1 := consumeMods propMods l
  let (isLet, r2) ← propKeyword r1
  let r3 ← pWsPlus r2
  let (name, r4) ← pWord r3
  let ta := propTypeAnno r4
  let value := propInitValue ta.2
  pure (isLet, name, ta.1, value)

/-- One step of the computed-property scanning loop of `parseProperty`
(lines 493-540 of the source), mirroring the getter/setter state machine.
Returns the final getter text, setter text and break line. -/
def propComputedLoop (fullRest : List String) :
    Nat → Bool → Bool → Int → String → String → String → String × String × Option Nat :=
  fun i inGetter inSetter depth getterBody setterBody currentBlock =>
    match fullRest with
    | [] => (getterBody, setterBody, none)
    | cl :: rest =>
      let depth2 := depth + (countChar cl obraceC : Int) - (countChar cl cbraceC : Int)
      let trimmed := jsTrim cl
      if trimmed == "get \x7b" || jsIncludes cl "get \x7b" then
        propComputedLoop rest (i + 1) true false depth2 getterBody setterBody ""
      else if trimmed == "set \x7b" || jsIncludes cl "set \x7b" then
        propComputedLoop rest (i + 1) false true depth2 getterBody setterBody ""
      else if depth2 == 0 then
        let g2 := if inGetter then jsTrim currentBlock else getterBody
        let s2 := if inSetter then jsTrim currentBlock else setterBody
        (g2, s2, some i)
      else
        let currentBlock2 :=
          if depth2 > 0 && !jsIncludes cl "get" && !jsIncludes cl "set" then
            if !trimmed.data.isEmpty && !jsIncludes cl "\x7b" && !jsIncludes cl "\x7d" then
              currentBlock ++ cl ++ "\n"
            else currentBlock
          else currentBlock
        if depth2 == 1 && jsIncludes cl "return" && !inGetter && !inSetter then
          let getterBody2 := trimmed
          match rest with
          | nextLine :: _ =>
            if jsIncludes nextLine "\x7d" then (getterBody2, setterBody, some (i + 1))
            else propComputedLoop rest (i + 1) inGetter inSetter depth2 getterBody2
              setterBody currentBlock2
          | [] => propComputedLoop rest (i + 1) inGetter inSetter depth2 getterBody2
              setterBody currentBlock2
        else propComputedLoop rest (i + 1) inGetter inSetter depth2 getterBody
          setterBody currentBlock2

/-- Embedding of `parseProperty`. -/
def parseProperty (line : String) (lines : List String) (startIndex : Nat) :
    Option SwiftProperty :=
  match scanFirst propSigAt line.data with
  | none => none
  | some (isLet, name, ty, value) =>
    let nextIsBrace :=
      match lines.drop (startIndex + 1) with
      | [] => false
      | x :: _ => jsTrim x == "\x7b"
    if jsIncludes line "\x7b" || nextIsBrace then
      let startLine := if !(jsIncludes line "\x7b") && nextIsBrace
        then startIndex + 1 else startIndex
      let st := propComputedLoop (lines.drop startLine) startLine false false 0 "" "" ""
      some { name := String.mk name
             ty := ty.map (fun t => jsTrim (String.mk t))
             isConstant := isLet
             initialValue := value.map (fun v => jsTrim (String.mk v))
             getter := if st.1.data.isEmpty then none else some st.1
             setter := if st.2.1.data.isEmpty then none else some st.2.1
             endLine := st.2.2.getD startIndex }
    else
      some { name := String.mk name
             ty := ty.map (fun t => jsTrim (String.mk t))
             isConstant := isLet
             initialValue := value.map (fun v => jsTrim (String.mk v))
             getter := none, setter := none, endLine := startIndex }

end SwiftConverter

namespace SwiftConverter

open JS

/-- The optional inheritance-clause fragment `(?:\s*:\s*([^{]+))?` of the
declaration-header patterns. -/
def declInherit (l : List Char) : Option (List Char) :=
  match pTok ":".data (pWs l) with
  | some ra => (pWsStarUntil (fun c => c == obraceC) ra).map Prod.fst
  | none => none

/-- Matcher for a declaration header `(?:MODS)*KW\s+(\w+)(?:\s*:\s*([^{]+))?`
at one position: returns the captured name and the optional inheritance
capture. -/
def namedDeclAt (mods : List String) (kw : String) (l : List Char) :
    Option (List Char × Option (List Char)) := do
  let r1 := consumeMods mods l
  let r2 ← pTok kw.data r1
  let r3 ← pWsPlus r2
  let (name, r4) ← pWord r3
  pure (name, declInherit r4)

/-- Matcher for the enum-case pattern `/case\s+(\w+)(?:\s*=\s*(.+))?/` at one
position. -/
def enumCaseAt (l : List Char) : Option (List Char × Option (List Char)) := do
  let r1 ← pTok "case".data l
  let r2 ← pWsPlus r1
  let (name, r3) ← pWord r2
  let v := match pTok "=".data (pWs r3) with
    | some ra => (pWsStarUntil (fun _ => false) ra).map Prod.fst
    | none => none
  pure (name, v)

/-- Capture of `/import\s+(.+)/` on one line. -/
def importCapture (line : String) : Option String :=
  scanFirst (fun l => do
    let r1 ← pTok "import".data l
    let r2 ← pWsPlus r1
    if r2.isEmpty then none else some (String.mk r2)) line.data

/-- Split search for the closure pattern `/\{([^}]*)\s+in/`: the greedy
`([^}]*)` selects the largest prefix of the brace-free run that is followed
by `\s+in` (the run may be split at position zero, the group being a star). -/
def closureSplit (run : List Char) : Nat → Option Nat
  | 0 =>
    match (pWsPlus run).bind (pTok "in".data) with
    | some _ => some 0
    | none => none
  | q + 1 =>
    match (pWsPlus (run.drop (q + 1))).bind (pTok "in".data) with
    | some _ => some (q + 1)
    | none => closureSplit run q

/-- Matcher for `/\{([^}]*)\s+in/` at one position: returns the parameter
capture. -/
def closureAt (l : List Char) : Option (List Char) :=
  match l with
  | [] => none
  | c :: t =>
    if c != obraceC then none
    else
      let run := t.takeWhile (fun x => x != cbraceC)
      (closureSplit run run.length).map (fun q => run.take q)

/-- Test for the keyword alternation plus one whitespace, `(?:var|let)\s+`. -/
def checkVarLetWs (l : List Char) : Bool :=
  (((pTok "var".data l).orElse (fun _ => pTok "let".data l)).bind pWsPlus).isSome

/-- Embedding of the anchored property-line test of the main loop,
`/^\s*(?:public\s+|private\s+|internal\s+|fileprivate\s+|open\s+)?(?:static\s+|lazy\s+|weak\s+|unowned\s+)?(?:var|let)\s+/`:
both optional modifier groups are tried present-then-absent. -/
def propertyLineTest (line : String) : Bool :=
  let l := pWs line.data
  let afterA := match tryMod ["public", "private", "internal", "fileprivate", "open"] l with
    | some r => [r, l]
    | none => [l]
  afterA.any (fun c1 =>
    let afterB := match tryMod ["static", "lazy", "weak", "unowned"] c1 with
      | some r => [r, c1]
      | none => [c1]
    afterB.any checkVarLetWs)

/-- Append a parsed method to the declaration aliased by the open context
(class/struct/extension methods, protocol requirements; an enum context
falls through to the free-function list, as in the source's `else`). -/
def resultPushMethod (r : SwiftParseResult) (ctx : SwiftCtx) (f : SwiftFunc) :
    SwiftParseResult :=
  match ctx.kind with
  | .cls =>
    let upd := fun (c : SwiftClassDecl) => { c with methods := c.methods ++ [f] }
    { r with classes := listModify r.classes ctx.idx upd }
  | .strct =>
    let upd := fun (c : SwiftStructDecl) => { c with methods := c.methods ++ [f] }
    { r with structs := listModify r.structs ctx.idx upd }
  | .ext =>
    let upd := fun (c : SwiftExtDecl) => { c with methods := c.methods ++ [f] }
    { r with extensions := listModify r.extensions ctx.idx upd }
  | .prot =>
    let upd := fun (c : SwiftProtoDecl) =>
      { c with requirements := c.requirements ++ [f] }
    { r with protocols := listModify r.protocols ctx.idx upd }
  | .enm => { r with functions := r.functions ++ [f] }

/-- Append a parsed initializer to the class or struct aliased by the open
context. -/
def resultPushInit (r : SwiftParseResult) (ctx : SwiftCtx) (ini : SwiftInit) :
    SwiftParseResult :=
  match ctx.kind with
  | .cls =>
    let upd := fun (c : SwiftClassDecl) =>
      { c with initializers := c.initializers ++ [ini] }
    { r with classes := listModify r.classes ctx.idx upd }
  | .strct =>
    let upd := fun (c : SwiftStructDecl) =>
      { c with initializers := c.initializers ++ [ini] }
    { r with structs := listModify r.structs ctx.idx upd }
  | _ => r

/-- Append a parsed property to the class or struct aliased by the open
context. -/
def resultPushProp (r : SwiftParseResult) (ctx : SwiftCtx) (p : SwiftProperty) :
    SwiftParseResult :=
  match ctx.kind with
  | .cls =>
    let upd := fun (c : SwiftClassDecl) =>
      { c with properties := c.properties ++ [p] }
    { r with classes := listModify r.classes ctx.idx upd }
  | .strct =>
    let upd := fun (c : SwiftStructDecl) =>
      { c with properties := c.properties ++ [p] }
    { r with structs := listModify r.structs ctx.idx upd }
  | _ => r

/-- Whether the current (top) context is an enum. -/
def ctxIsEnum (st : SwiftState) : Bool :=
  match st.contextStack.getLast? with
  | some ctx => ctx.kind == .enm
  | none => false

/-- Split an inheritance capture for a class header: the whole capture is
trimmed, split on commas; the first piece (untrimmed) is the superclass and
the remaining pieces (trimmed) are protocols. -/
def classInheritParts (g : List Char) : Option String × List String :=
  let parts := jsSplitChar ',' (jsTrim (String.mk g))
  (some (parts.headD ""), (parts.drop 1).map jsTrim)

/-- Branch of the `parseSwift` loop handling `import` lines. -/
def swiftHandleImport (line : String) (st : SwiftState) (i : Nat) :
    SwiftState × Nat :=
  match importCapture line with
  | some imp =>
    ({ st with result :=
        { st.result with imports := st.result.imports ++ [imp] } }, i)
  | none => (st, i)

/-- Branch of the `parseSwift` loop handling `class` declarations. -/
def swiftHandleClass (line : String) (st : SwiftState) (i : Nat) :
    SwiftState × Nat :=
  match scanFirst (namedDeclAt ["public", "private", "internal", "open", "final"]
      "class") line.data with
  | some (name, inh) =>
    let sp := match inh with
      | some g => classInheritParts g
      | none => (none, [])
    let decl : SwiftClassDecl :=
      { name := String.mk name, superclass := sp.1, protocols := sp.2,
        properties := [], methods := [], initializers := [] }
    let r2 := { st.result with classes := st.result.classes ++ [decl] }
    ({ st with result := r2,
               contextStack :=
                 st.contextStack ++ [⟨.cls, st.result.classes.length⟩] }, i)
  | none => (st, i)

/-- Branch of the `parseSwift` loop handling `struct` declarations. -/
def swiftHandleStruct (line : String) (st : SwiftState) (i : Nat) :
    SwiftState × Nat :=
  match scanFirst (namedDeclAt ["public", "private", "internal"] "struct")
      line.data with
  | some (name, inh) =>
    let protos := match inh with
      | some g => splitCommaTrim (jsTrim (String.mk g))
      | none => []
    let decl : SwiftStructDecl :=
      { name := String.mk name, protocols := protos,
        properties := [], methods := [], initializers := [] }
    let r2 := { st.result with structs := st.result.structs ++ [decl] }
    ({ st with result := r2,
               contextStack :=
                 st.contextStack ++ [⟨.strct, st.result.structs.length⟩] }, i)
  | none => (st, i)

/-- Branch of the `parseSwift` loop handling `enum` declarations. -/
def swiftHandleEnum (line : String) (st : SwiftState) (i : Nat) :
    SwiftState × Nat :=
  match scanFirst (namedDeclAt ["public", "private", "internal"] "enum")
      line.data with
  | some (name, inh) =>
    let decl : SwiftEnumDecl :=
      { name := String.mk name,
        rawType := inh.map (fun g => jsTrim (String.mk g)), cases := [] }
    let r2 := { st.result with enums := st.result.enums ++ [decl] }
    ({ st with result := r2,
               contextStack :=
                 st.contextStack ++ [⟨.enm, st.result.enums.length⟩] }, i)
  | none => (st, i)

/-- Branch of the `parseSwift` loop handling `protocol` declarations. -/
def swiftHandleProtocol (line : String) (st : SwiftState) (i : Nat) :
    SwiftState × Nat :=
  match scanFirst (namedDeclAt ["public", "private", "internal"] "protocol")
      line.data with
  | some (name, inh) =>
    let decl : SwiftProtoDecl :=
      { name := String.mk name,
        inheritedProtocols := match inh with
          | some g => splitCommaTrim (jsTrim (String.mk g))
          | none => []
        requirements := [] }
    let r2 := { st.result with protocols := st.result.protocols ++ [decl] }
    ({ st with result := r2,
               contextStack :=
                 st.contextStack ++ [⟨.prot, st.result.protocols.length⟩] }, i)
  | none => (st, i)

/-- Branch of the `parseSwift` loop handling `extension` declarations. -/
def swiftHandleExtension (line : String) (st : SwiftState) (i : Nat) :
    SwiftState × Nat :=
  match scanFirst (namedDeclAt [] "extension") line.data with
  | some (name, inh) =>
    let decl : SwiftExtDecl :=
      { extendedType := String.mk name,
        protocols := match inh with
          | some g => splitCommaTrim (jsTrim (String.mk g))
          | none => []
        methods := [] }
    let r2 := { st.result with extensions := st.result.extensions ++ [decl] }
    ({ st with result := r2,
               contextStack :=
                 st.contextStack ++ [⟨.ext, st.result.extensions.length⟩] }, i)
  | none => (st, i)

/-- Branch of the `parseSwift` loop handling `func` declarations. -/
def swiftHandleFunc (lines : List String) (i : Nat) (line : String)
    (st : SwiftState) : SwiftState × Nat :=
  match parseFunction line lines i with
  | some f =>
    let r2 := match st.contextStack.getLast? with
      | some ctx => resultPushMethod st.result ctx f
      | none => { st.result with functions := st.result.functions ++ [f] }
    ({ st with result := r2 }, if f.endLine == 0 then i else f.endLine)
  | none => (st, i)

/-- Branch of the `parseSwift` loop handling `init(` declarations. -/
def swiftHandleInit (lines : List String) (i : Nat) (line : String)
    (st : SwiftState) : SwiftState × Nat :=
  match parseInitDecl line lines i with
  | some ini =>
    match st.contextStack.getLast? with
    | some ctx =>
      if ctx.kind == .cls || ctx.kind == .strct then
        ({ st with result := resultPushInit st.result ctx ini },
         if ini.endLine == 0 then i else ini.endLine)
      else (st, i)
    | none => (st, i)
  | none => (st, i)

/-- Branch of the `parseSwift` loop handling property declarations. -/
def swiftHandleProp (lines : List String) (i : Nat) (line : String)
    (st : SwiftState) : SwiftState × Nat :=
  match parseProperty line lines i with
  | some p =>
    match st.contextStack.getLast? with
    | some ctx =>
      if ctx.kind == .cls || ctx.kind == .strct then
        ({ st with result := resultPushProp st.result ctx p },
         if p.endLine == 0 then i else p.endLine)
      else
        ({ st with result :=
            { st.result with
              variableDecls := st.result.variableDecls ++ [p] } }, i)
    | none =>
      ({ st with result :=
          { st.result with
            variableDecls := st.result.variableDecls ++ [p] } }, i)
  | none => (st, i)

/-- Branch of the `parseSwift` loop handling enum `case` lines. -/
def swiftHandleCase (line : String) (st : SwiftState) (i : Nat) :
    SwiftState × Nat :=
  match scanFirst enumCaseAt line.data with
  | some (name, v) =>
    match st.contextStack.getLast? with
    | some ctx =>
      let newCase : SwiftEnumCase :=
        { name := String.mk name, value := v.map (fun x => jsTrim (String.mk x)) }
      let upd := fun (e : SwiftEnumDecl) => { e with cases := e.cases ++ [newCase] }
      let r2 := { st.result with enums := listModify st.result.enums ctx.idx upd }
      ({ st with result := r2 }, i)
    | none => (st, i)
  | none => (st, i)

/-- Fallback branch of the `parseSwift` loop: brace-depth bookkeeping,
context popping and closure capture. -/
def swiftHandleOther (line : String) (st : SwiftState) (i : Nat) :
    SwiftState × Nat :=
  let d1 := st.braceDepth +
    (if jsIncludes line "\x7b" then (countChar line obraceC : Int) else 0)
  let popped :=
    if jsIncludes line "\x7d" then
      let d := d1 - (countChar line cbraceC : Int)
      if d == (st.contextStack.length : Int) - 1 then (d, st.contextStack.dropLast)
      else (d, st.contextStack)
    else (d1, st.contextStack)
  let st2 : SwiftState :=
    { st with braceDepth := popped.1, contextStack := popped.2 }
  if jsIncludes line "\x7b" && jsIncludes line "in" then
    match scanFirst closureAt line.data with
    | some g =>
      let newClosure : SwiftClosure := { parameters := jsTrim (String.mk g), line := i }
      let r2 := { st2.result with closures := st2.result.closures ++ [newClosure] }
      ({ st2 with result := r2 }, i)
    | none => (st2, i)
  else (st2, i)

/-- One iteration of the `parseSwift` main loop on line `i`; returns the
updated state and the (pre-increment) next index, mirroring the source's
`i = x.endLine || i` jumps. -/
def swiftLineStep (lines : List String) (i : Nat) (st : SwiftState) :
    SwiftState × Nat :=
  let line := lines.getD i ""
  if line.data.isEmpty || jsStartsWith line "//" || jsStartsWith line "/*" ||
      jsStartsWith line "*" then (st, i)
  else if jsStartsWith line "import " then swiftHandleImport line st i
  else if jsIncludes line "class " then swiftHandleClass line st i
  else if jsIncludes line "struct " then swiftHandleStruct line st i
  else if jsIncludes line "enum " then swiftHandleEnum line st i
  else if jsIncludes line "protocol " then swiftHandleProtocol line st i
  else if jsIncludes line "extension " then swiftHandleExtension line st i
  else if jsIncludes line "func " then swiftHandleFunc lines i line st
  else if jsIncludes line "init(" then swiftHandleInit lines i line st
  else if propertyLineTest line then swiftHandleProp lines i line st
  else if jsIncludes line "case " && ctxIsEnum st then swiftHandleCase line st i
  else swiftHandleOther line st i

/-- Fuelled main loop of `parseSwift`: each iteration advances the index by
at least one (every `endLine` jump target is at least the current index), so
fuel equal to the number of lines is exact. -/
def parseSwiftLoop (lines : List String) : Nat → Nat → SwiftState → SwiftState
  | 0, _, st => st
  | fuel + 1, i, st =>
    if i < lines.length then
      let s2 := swiftLineStep lines i st
      parseSwiftLoop lines fuel (s2.2 + 1) s2.1
    else st

/-- Embedding of `SwiftConverter.parseSwift`: split into trimmed non-empty
lines and run the declaration state machine.  The `warnings` list of the
result record is created empty and no branch of the loop ever appends to
it. -/
def parseSwift (code : String) : SwiftParseResult :=
  let lines := ((jsSplitChar '\n' code).map jsTrim).filter (fun l => !l.data.isEmpty)
  (parseSwiftLoop lines lines.length 0 ⟨emptySwiftResult, [], 0⟩).result

end SwiftConverter

namespace ObjectiveCConverter

open JS

/-- Parameter record of the Objective-C parser. -/
structure ObjCParam where
  label : String
  ty : String
  name : String
deriving Repr, DecidableEq

/-- Method record of the Objective-C parser. -/
structure ObjCMethod where
  isInstance : Bool
  returnType : String
  name : String
  parameters : List ObjCParam
  body : String
  endLine : Nat
  isDeclaration : Bool
deriving Repr, DecidableEq

/-- Property record of the Objective-C parser. -/
structure ObjCProperty where
  attributes : String
  ty : String
  name : String
deriving Repr, DecidableEq

/-- Class record of the Objective-C parser. -/
structure ObjCClass where
  name : String
  superclass : String
  protocols : List String
  properties : List ObjCProperty
  methods : List ObjCMethod
  isInterface : Bool
deriving Repr, DecidableEq

/-- Protocol record of the Objective-C parser. -/
structure ObjCProtocol where
  name : String
  methods : List ObjCMethod
  endLine : Nat
deriving Repr, DecidableEq

/-- Category record of the Objective-C parser. -/
structure ObjCCategory where
  className : String
  categoryName : String
  methods : List ObjCMethod
  endLine : Nat
deriving Repr, DecidableEq

/-- Block record of the Objective-C parser. -/
structure ObjCBlock where
  name : String
  parameters : String
  line : Nat
deriving Repr, DecidableEq

/-- Free-variable record of the Objective-C parser. -/
structure ObjCVariable where
  ty : String
  name : String
  initialValue : Option String
deriving Repr, DecidableEq

/-- The structured result of `parseObjectiveC`.  The `functions` list can
never be populated: the branch that would fill it calls the non-existent
`this.parseFunction` and therefore throws (see `parseObjectiveC`).  The
`warnings` list is initialized empty and never appended to. -/
structure ObjCParseResult where
  imports : List String
  classes : List ObjCClass
  methods : List ObjCMethod
  functions : List ObjCMethod
  variableDecls : List ObjCVariable
  protocols : List ObjCProtocol
  categories : List ObjCCategory
  blocks : List ObjCBlock
  warnings : List String
deriving Repr, DecidableEq

/-- The empty initial Objective-C parse result. -/
def emptyObjCResult : ObjCParseResult :=
  ⟨[], [], [], [], [], [], [], [], []⟩

/-- Embedding of `s.endsWith(suffix)`. -/
def jsEndsWith (s suffix : String) : Bool :=
  suffix.data.reverse.isPrefixOf s.data.reverse

/-- Matcher for `/#import\s+[<"]([^>"]+)[>"]/` at one position (note the
literal `#import`: `#include` lines never match). -/
def importObjCAt (l : List Char) : Option (List Char) := do
  let r1 ← pTok "#import".data l
  let r2 ← pWsPlus r1
  match r2 with
  | [] => none
  | c :: t =>
    if c == '<' || c == JS.dquoteC then
      let g := t.takeWhile (fun x => !(x == '>' || x == JS.dquoteC))
      if g.isEmpty then none
      else
        match t.drop g.length with
        | c2 :: _ => if c2 == '>' || c2 == JS.dquoteC then some g else none
        | [] => none
    else none

/-- Matcher for
`/@interface\s+(\w+)(?:\s*:\s*(\w+))?(?:\s*<([^>]+)>)?/` at one position. -/
def interfaceAt (l : List Char) :
    Option (List Char × Option (List Char) × Option (List Char)) := do
  let r1 ← pTok "@interface".data l
  let r2 ← pWsPlus r1
  let (name, r3) ← pWord r2
  let sup := match pTok ":".data (pWs r3) with
    | some ra => (pWord (pWs ra)).map Prod.fst
    | none => none
  let r4 := match pTok ":".data (pWs r3) with
    | some ra =>
      match pWord (pWs ra) with
      | some (_, rb) => rb
      | none => r3
    | none => r3
  let protos := match pTok "<".data (pWs r4) with
    | some ra =>
      let g := ra.takeWhile (fun c => c != '>')
      if g.isEmpty then none
      else if (pTok ">".data (ra.drop g.length)).isSome then some g else none
    | none => none
  pure (name, sup, protos)

/-- Matcher for `/@implementation\s+(\w+)/` at one position. -/
def implAt (l : List Char) : Option (List Char) := do
  let r1 ← pTok "@implementation".data l
  let r2 ← pWsPlus r1
  (pWord r2).map Prod.fst

/-- Split search of the `@property` pattern tail `([^;]+)\s+(\w+)`: among
positions of the run before the first `;`, the rightmost `q` such that the
text from `q` starts with whitespace followed by a word character; the type
capture is the run before `q` and the name the word after the whitespace. -/
def propSplitQ (run : List Char) : Nat → Option Nat
  | 0 => none
  | q + 1 =>
    match (pWsPlus (run.drop (q + 1))).bind pWord with
    | some _ => some (q + 1)
    | none => propSplitQ run q

/-- The `@property` pattern tail from a cursor: `([^;]+)\s+(\w+)`. -/
def propTailAt (l : List Char) : Option (List Char × List Char) := do
  let run := l.takeWhile (fun c => c != ';')
  let q ← propSplitQ run run.length
  let tail := run.drop q
  let t2 ← pWsPlus tail
  let (name, _) ← pWord t2
  pure (run.take q, name)

/-- Matcher for `/@property\s*(\([^)]*\))?\s*([^;]+)\s+(\w+)/` at one
position: the optional attribute-parenthesis group is tried first and
dropped when the rest of the pattern cannot match after it. -/
def propertyAt (l : List Char) :
    Option (Option (List Char) × List Char × List Char) := do
  let r1 ← pTok "@property".data l
  let r2 := pWs r1
  let withParens : Option (Option (List Char) × List Char × List Char) := do
    let r3 ← pTok "(".data r2
    let inner := r3.takeWhile (fun c => c != ')')
    let r4 ← pTok ")".data (r3.drop inner.length)
    let (ty, name) ← propTailAt (pWs r4)
    pure (some ("(".data ++ inner ++ ")".data), ty, name)
  match withParens with
  | some x => some x
  | none =>
    match propTailAt r2 with
    | some (ty, name) => some (none, ty, name)
    | none => none

/-- Matcher for the block pattern `/(\w+)\s*=\s*\^([^{]*)\{/` at one
position. -/
def blockAt (l : List Char) : Option (List Char × List Char) := do
  let (name, r1) ← pWord l
  let r2 ← pTok "=".data (pWs r1)
  let r3 ← pTok "^".data (pWs r2)
  let params := r3.takeWhile (fun c => c != obraceC)
  let _ ← pTok [obraceC] (r3.drop params.length)
  pure (name, params)

/-- Test for the anchored method pattern `/^[-+]\s*\(/`. -/
def methodLineTest (line : String) : Bool :=
  match line.data with
  | c :: t =>
    (c == '-' || c == '+') && (pTok "(".data (pWs t)).isSome
  | [] => false

/-- Test for the anchored standalone-function pattern `/^\w+\s+\w+\s*\(/`. -/
def functionLineTest (line : String) : Bool :=
  (Option.isSome <| do
    let (_, r1) ← pWord line.data
    let r2 ← pWsPlus r1
    let (_, r3) ← pWord r2
    pTok "(".data (pWs r3))

/-- Test for the anchored variable pattern `/^\w+\s+\*?\w+\s*[=;]/`. -/
def varLineTest (line : String) : Bool :=
  (Option.isSome <| do
    let (_, r1) ← pWord line.data
    let r2 ← pWsPlus r1
    let r3 := match pTok "*".data r2 with
      | some r => r
      | none => r2
    let (_, r4) ← pWord r3
    match pWs r4 with
    | c :: _ => if c == '=' || c == ';' then some () else none
    | [] => none)

/-- Matcher for the anchored variable capture
`/^(\w+)\s+\*?(\w+)\s*(?:=\s*([^;]+))?/`. -/
def varCaptureAt (l : List Char) :
    Option (List Char × List Char × Option (List Char)) := do
  let (ty, r1) ← pWord l
  let r2 ← pWsPlus r1
  let r3 := match pTok "*".data r2 with
    | some r => r
    | none => r2
  let (name, r4) ← pWord r3
  let v := match pTok "=".data (pWs r4) with
    | some ra => (SwiftConverter.pWsStarUntil (fun c => c == ';') ra).map Prod.fst
    | none => none
  pure (ty, name, v)

/-- Embedding of the zero-width-lookahead split
`signature.split(/(?=\w+:)/)`: per the ECMAScript split algorithm on empty
matches, the string is cut at every position `q > 0` where a non-empty run
of word characters followed by `:` begins. -/
def lookaheadHolds (l : List Char) : Bool :=
  let w := l.takeWhile isWordChar
  if w.isEmpty then false
  else
    match l.drop w.length with
    | ':' :: _ => true
    | _ => false

/-- Walk of the lookahead split, accumulating the current piece. -/
def lookaheadSplitAux : List Char → Bool → List Char → List String
  | [], _, acc => [String.mk acc.reverse]
  | c :: t, atStart, acc =>
    if !atStart && lookaheadHolds (c :: t) then
      String.mk acc.reverse :: lookaheadSplitAux t false [c]
    else lookaheadSplitAux t false (c :: acc)

/-- The split `signature.split(/(?=\w+:)/)`. -/
def lookaheadSplit (s : String) : List String :=
  lookaheadSplitAux s.data true []

/-- Matcher for the labelled parameter pattern
`/(\w+):\s*\(([^)]+)\)\s*(\w+)/` at one position. -/
def labelledParamAt (l : List Char) :
    Option (List Char × List Char × List Char) := do
  let (label, r1) ← pWord l
  let r2 ← pTok ":".data r1
  let r3 ← pTok "(".data (pWs r2)
  let ty := r3.takeWhile (fun c => c != ')')
  if ty.isEmpty then none
  else do
    let r4 ← pTok ")".data (r3.drop ty.length)
    let (name, _) ← pWord (pWs r4)
    pure (label, ty, name)

/-- Matcher for the unlabelled parameter pattern `/(\w+):\s*(\w+)/` at one
position. -/
def simpleParamAt (l : List Char) : Option (List Char × List Char) := do
  let (label, r1) ← pWord l
  let r2 ← pTok ":".data r1
  let (name, _) ← pWord (pWs r2)
  pure (label, name)

/-- Embedding of `parseMethodParameters`: no parameters without a colon;
otherwise the signature is lookahead-split and every piece after the first
is matched (typed form first, then the `id`-typed fallback). -/
def parseMethodParameters (signature : String) : List ObjCParam :=
  if !jsIncludes signature ":" then []
  else
    ((lookaheadSplit signature).drop 1).foldl (fun acc part =>
      let trimmed := (SwiftConverter.jsTrim part).data
      match scanFirst labelledParamAt trimmed with
      | some (label, ty, name) =>
        acc ++ [{ label := String.mk label, ty := String.mk ty,
                  name := String.mk name }]
      | none =>
        match scanFirst simpleParamAt trimmed with
        | some (label, name) =>
          acc ++ [{ label := String.mk label, ty := "id", name := String.mk name }]
        | none => acc) []

/-- Embedding of `extractMethodName`: the text before the first colon,
trimmed (or the whole trimmed signature when there is no colon). -/
def extractMethodName (signature : String) : String :=
  if !jsIncludes signature ":" then SwiftConverter.jsTrim signature
  else SwiftConverter.jsTrim ((jsSplitChar ':' signature).headD "")

/-- Matcher for the method header `/^([-+])\s*\(([^)]+)\)\s*(.+)/`. -/
def methodHeaderAt (l : List Char) :
    Option (Bool × List Char × List Char) := do
  match l with
  | c :: t =>
    if c == '-' || c == '+' then do
      let r1 ← pTok "(".data (pWs t)
      let rt := r1.takeWhile (fun x => x != ')')
      if rt.isEmpty then none
      else do
        let r2 ← pTok ")".data (r1.drop rt.length)
        let (sig, _) ← SwiftConverter.pWsStarUntil (fun _ => false) r2
        pure (c == '-', rt, sig)
    else none
  | [] => none

/-- Embedding of `ObjectiveCConverter.parseMethod`: header match, the
declaration shortcut for signatures ending in `;`, and otherwise the same
brace-counting body loop as the Swift initializer parser (the two source
loops are textually identical). -/
def parseMethod (line : String) (lines : List String) (startIndex : Nat) :
    Option ObjCMethod :=
  match methodHeaderAt line.data with
  | none => none
  | some (isInstance, rt, sig) =>
    let signature := String.mk sig
    if jsEndsWith signature ";" then
      let sliced := String.mk sig.dropLast
      some { isInstance
             returnType := String.mk rt
             name := SwiftConverter.jsTrim sliced
             parameters := parseMethodParameters sliced
             body := ""
             endLine := startIndex
             isDeclaration := true }
    else
      let st := SwiftConverter.initBodyLoop (lines.drop startIndex) startIndex
        false 0 0 ""
      some { isInstance
             returnType := String.mk rt
             name := extractMethodName signature
             parameters := parseMethodParameters signature
             body := SwiftConverter.jsTrim st.1
             endLine := st.2.getD startIndex
             isDeclaration := false }

/-- Loop of `parseProtocols` over the lines after the `@protocol` header:
stops at `@end`, collecting every method-shaped line (no index jumps). -/
def protocolLoop (lines : List String) :
    Nat → Nat → List ObjCMethod → List ObjCMethod × Option Nat
  | 0, _, acc => (acc, none)
  | fuel + 1, i, acc =>
    if i < lines.length then
      let cl := SwiftConverter.jsTrim (lines.getD i "")
      if cl == "@end" then (acc, some i)
      else if methodLineTest cl then
        match parseMethod cl lines i with
        | some m => protocolLoop lines fuel (i + 1) (acc ++ [m])
        | none => protocolLoop lines fuel (i + 1) acc
      else protocolLoop lines fuel (i + 1) acc
    else (acc, none)

/-- Embedding of `parseProtocols`. -/
def parseProtocols (line : String) (lines : List String) (startIndex : Nat) :
    Option ObjCProtocol :=
  match scanFirst (fun l => do
      let r1 ← pTok "@protocol".data l
      let r2 ← pWsPlus r1
      (pWord r2).map Prod.fst) line.data with
  | none => none
  | some name =>
    let st := protocolLoop lines (lines.length) (startIndex + 1) []
    some { name := String.mk name, methods := st.1,
           endLine := st.2.getD startIndex }

/-- Matcher for the category header `/@interface\s+(\w+)\s*\((\w+)\)/`. -/
def categoryHeaderAt (l : List Char) : Option (List Char × List Char) := do
  let r1 ← pTok "@interface".data l
  let r2 ← pWsPlus r1
  let (cls, r3) ← pWord r2
  let r4 ← pTok "(".data (pWs r3)
  let (cat, r5) ← pWord r4
  let _ ← pTok ")".data r5
  pure (cls, cat)

/-- Loop of `parseCategory`: like the protocol loop but with the
`i = method.endLine || i` jump after each collected method. -/
def categoryLoop (lines : List String) :
    Nat → Nat → List ObjCMethod → List ObjCMethod × Option Nat
  | 0, _, acc => (acc, none)
  | fuel + 1, i, acc =>
    if i < lines.length then
      let cl := SwiftConverter.jsTrim (lines.getD i "")
      if cl == "@end" then (acc, some i)
      else if methodLineTest cl then
        match parseMethod cl lines i with
        | some m =>
          let j := if m.endLine == 0 then i else m.endLine
          categoryLoop lines fuel (j + 1) (acc ++ [m])
        | none => categoryLoop lines fuel (i + 1) acc
      else categoryLoop lines fuel (i + 1) acc
    else (acc, none)

/-- Embedding of `parseCategory`. -/
def parseCategory (line : String) (lines : List String) (startIndex : Nat) :
    Option ObjCCategory :=
  match scanFirst categoryHeaderAt line.data with
  | none => none
  | some (cls, cat) =>
    let st := categoryLoop lines lines.length (startIndex + 1) []
    some { className := String.mk cls, categoryName := String.mk cat,
           methods := st.1, endLine := st.2.getD startIndex }

/-- Loop state of `parseObjectiveC`: result, current class (an index into
`classes`, mirroring the source's object alias) and the brace depth. -/
structure ObjCState where
  result : ObjCParseResult
  currentClass : Option Nat
  braceDepth : Int
deriving Repr, DecidableEq

/-- Branch of the `parseObjectiveC` loop handling `#import` lines. -/
def objcHandleImport (line : String) (st : ObjCState) (i : Nat) :
    ObjCState × Nat :=
  match scanFirst importObjCAt line.data with
  | some imp =>
    ({ st with result :=
        { st.result with imports := st.result.imports ++ [String.mk imp] } }, i)
  | none => (st, i)

/-- Branch of the `parseObjectiveC` loop handling `@protocol` blocks. -/
def objcHandleProtocol (lines : List String) (i : Nat) (line : String)
    (st : ObjCState) : ObjCState × Nat :=
  match parseProtocols line lines i with
  | some p =>
    ({ st with result :=
        { st.result with protocols := st.result.protocols ++ [p] } }, p.endLine)
  | none => (st, i)

/-- Branch of the `parseObjectiveC` loop handling category interfaces. -/
def objcHandleCategory (lines : List String) (i : Nat) (line : String)
    (st : ObjCState) : ObjCState × Nat :=
  match parseCategory line lines i with
  | some c =>
    ({ st with result :=
        { st.result with categories := st.result.categories ++ [c] } }, c.endLine)
  | none => (st, i)

/-- Branch of the `parseObjectiveC` loop handling `@interface` headers. -/
def objcHandleInterface (line : String) (st : ObjCState) (i : Nat) :
    ObjCState × Nat :=
  match scanFirst interfaceAt line.data with
  | some (name, sup, protos) =>
    let decl : ObjCClass :=
      { name := String.mk name
        superclass := (sup.map String.mk).getD "NSObject"
        protocols := match protos with
          | some g => (jsSplitChar ',' (String.mk g)).map SwiftConverter.jsTrim
          | none => []
        properties := [], methods := [], isInterface := true }
    let r2 := { st.result with classes := st.result.classes ++ [decl] }
    ({ st with result := r2, currentClass := some st.result.classes.length }, i)
  | none => (st, i)

/-- Branch of the `parseObjectiveC` loop handling `@implementation` headers. -/
def objcHandleImplementation (line : String) (st : ObjCState) (i : Nat) :
    ObjCState × Nat :=
  match scanFirst implAt line.data with
  | some name =>
    let nm := String.mk name
    match st.result.classes.findIdx? (fun c => c.name == nm) with
    | some idx =>
      let upd := fun (c : ObjCClass) => { c with isInterface := false }
      let r2 := { st.result with
        classes := SwiftConverter.listModify st.result.classes idx upd }
      ({ st with result := r2, currentClass := some idx }, i)
    | none =>
      let decl : ObjCClass :=
        { name := nm, superclass := "NSObject", protocols := [],
          properties := [], methods := [], isInterface := false }
      let r2 := { st.result with classes := st.result.classes ++ [decl] }
      ({ st with result := r2, currentClass := some st.result.classes.length }, i)
  | none => (st, i)

/-- Branch of the `parseObjectiveC` loop handling `@property` lines. -/
def objcHandleProperty (line : String) (st : ObjCState) (i : Nat) :
    ObjCState × Nat :=
  match scanFirst propertyAt line.data, st.currentClass with
  | some (attrs, ty, name), some idx =>
    let p : ObjCProperty :=
      { attributes := (attrs.map String.mk).getD ""
        ty := SwiftConverter.jsTrim (String.mk ty)
        name := String.mk name }
    let upd := fun (c : ObjCClass) => { c with properties := c.properties ++ [p] }
    let r2 := { st.result with
      classes := SwiftConverter.listModify st.result.classes idx upd }
    ({ st with result := r2 }, i)
  | _, _ => (st, i)

/-- Branch of the `parseObjectiveC` loop handling method declarations. -/
def objcHandleMethod (lines : List String) (i : Nat) (line : String)
    (st : ObjCState) : ObjCState × Nat :=
  match parseMethod line lines i with
  | some m =>
    let r2 := match st.currentClass with
      | some idx =>
        let upd := fun (c : ObjCClass) => { c with methods := c.methods ++ [m] }
        { st.result with
          classes := SwiftConverter.listModify st.result.classes idx upd }
      | none => { st.result with methods := st.result.methods ++ [m] }
    ({ st with result := r2 }, if m.endLine == 0 then i else m.endLine)
  | none => (st, i)

/-- Branch of the `parseObjectiveC` loop handling block declarations. -/
def objcHandleBlock (line : String) (st : ObjCState) (i : Nat) :
    ObjCState × Nat :=
  match scanFirst blockAt line.data with
  | some (name, params) =>
    let b : ObjCBlock :=
      { name := String.mk name
        parameters := SwiftConverter.jsTrim (String.mk params), line := i }
    ({ st with result := { st.result with blocks := st.result.blocks ++ [b] } }, i)
  | none => (st, i)

/-- Fallback branch of the `parseObjectiveC` loop: brace-depth bookkeeping
and top-level variable capture. -/
def objcHandleRest (line : String) (st : ObjCState) (i : Nat) :
    ObjCState × Nat :=
  let depth2 := st.braceDepth + (SwiftConverter.countChar line obraceC : Int) -
    (SwiftConverter.countChar line cbraceC : Int)
  let st2 := { st with braceDepth := depth2 }
  if depth2 == 0 && varLineTest line then
    match varCaptureAt line.data with
    | some (ty, name, v) =>
      let vd : ObjCVariable :=
        { ty := String.mk ty, name := String.mk name,
          initialValue := v.map String.mk }
      ({ st2 with result := { st2.result with
        variableDecls := st2.result.variableDecls ++ [vd] } }, i)
    | none => (st2, i)
  else (st2, i)

/-- Later branches of the `parseObjectiveC` loop dispatch: property,
synthesize, method, block, standalone-function (which throws) and the
fallback.  `Except.error` models the `TypeError` thrown by the
standalone-function branch, whose `this.parseFunction` helper does not
exist on the class. -/
def objcLineStepTail (lines : List String) (i : Nat) (line : String)
    (st : ObjCState) : Except String (ObjCState × Nat) :=
  if jsStartsWith line "@property" then
    .ok (objcHandleProperty line st i)
  else if jsStartsWith line "@synthesize" then .ok (st, i)
  else if methodLineTest line then
    .ok (objcHandleMethod lines i line st)
  else if jsIncludes line "^" then
    .ok (objcHandleBlock line st i)
  else if functionLineTest line then
    .error "this.parseFunction is not a function"
  else
    .ok (objcHandleRest line st i)

/-- One iteration of the `parseObjectiveC` main loop: the early dispatch
branches (skip, import, protocol, category, interface, implementation,
end) followed by `objcLineStepTail`. -/
def objcLineStep (lines : List String) (i : Nat) (st : ObjCState) :
    Except String (ObjCState × Nat) :=
  let line := lines.getD i ""
  if line.data.isEmpty || jsStartsWith line "//" || jsStartsWith line "/*" ||
      jsIncludes line "*" then .ok (st, i)
  else if jsStartsWith line "#import" || jsStartsWith line "#include" then
    .ok (objcHandleImport line st i)
  else if jsStartsWith line "@protocol" then
    .ok (objcHandleProtocol lines i line st)
  else if jsIncludes line "@interface" && jsIncludes line "(" &&
      jsIncludes line ")" then
    .ok (objcHandleCategory lines i line st)
  else if jsStartsWith line "@interface" then
    .ok (objcHandleInterface line st i)
  else if jsStartsWith line "@implementation" then
    .ok (objcHandleImplementation line st i)
  else if line == "@end" then
    .ok ({ st with currentClass := none }, i)
  else
    objcLineStepTail lines i line st

/-- Fuelled main loop of `parseObjectiveC`. -/
def parseObjCLoop (lines : List String) :
    Nat → Nat → ObjCState → Except String ObjCState
  | 0, _, st => .ok st
  | fuel + 1, i, st =>
    if i < lines.length then
      match objcLineStep lines i st with
      | .ok (st2, j) => parseObjCLoop lines fuel (j + 1) st2
      | .error e => .error e
    else .ok st

/-- Embedding of `ObjectiveCConverter.parseObjectiveC`.  The `Except.error`
case is the `TypeError` raised when a top-level C-function-shaped line
reaches the standalone-function branch (`this.parseFunction` is not defined
anywhere on the class); every returned result carries an empty `warnings`
list, which no branch ever appends to. -/
def parseObjectiveC (code : String) : Except String ObjCParseResult :=
  let lines := ((jsSplitChar '\n' code).map SwiftConverter.jsTrim).filter
    (fun l => !l.data.isEmpty)
  (parseObjCLoop lines lines.length 0 ⟨emptyObjCResult, none, 0⟩).map
    (fun st => st.result)

end ObjectiveCConverter


/-- A malformed sample line used as a shared test input for the parsers. -/
def objcSample : String := "@@@ not objc"

/-- Claim C1 (counterexample): the MD5 pre-image of the platform-adaptation
cache key is not a function of code and options alone: with the same code
and options, the pre-images computed at two wall-clock instants one hour
apart differ (the hour bucket `Math.floor(Date.now()/3600000)` is part of
the serialized record), so the stated purity fails. -/
theorem c1_counterexample :
    IOSTranslator.generateCacheKeyInput "x" "\x7b\x7d" 0 ≠
      IOSTranslator.generateCacheKeyInput "x" "\x7b\x7d" 3600000 := by
  decide

/-- Claim C1 (amended): the adaptation-stage fingerprint pre-image is a pure
function of code, options and the current hour bucket: two computations in
the same hour yield identical pre-images (hence identical MD5 cache keys);
the JIT-engine fingerprint pre-image takes no time input at all. -/
theorem c1_theorem (code optionsJson : String) (t1 t2 : Nat)
    (h : t1 / 3600000 = t2 / 3600000) :
    IOSTranslator.generateCacheKeyInput code optionsJson t1 =
      IOSTranslator.generateCacheKeyInput code optionsJson t2 := by
  simp only [IOSTranslator.generateCacheKeyInput, h]

/-- Claim C1 (witness): the amended theorem applied at two instants inside
hour bucket zero. -/
theorem c1_witness :
    (0 : Nat) / 3600000 = 1 / 3600000 ∧
    IOSTranslator.generateCacheKeyInput "x" "\x7b\x7d" 0 =
      IOSTranslator.generateCacheKeyInput "x" "\x7b\x7d" 1 :=
  ⟨by decide, c1_theorem "x" "\x7b\x7d" 0 1 (by decide)⟩

/-- Claim C2 (counterexample): the optimization pipeline is not idempotent
at level O1: `1+2+3` folds to `3+3` (the global constant-folding replace
resumes after each match), and re-running the pipeline folds `3+3` to `6`,
a different result. -/
theorem c2_counterexample :
    JITEngine.optimize "1+2+3" "O1" = Except.ok "3+3" ∧
    (JITEngine.optimize "1+2+3" "O1").bind (fun c => JITEngine.optimize c "O1") =
      Except.ok "6" ∧
    ("3+3" : String) ≠ "6" :=
  ⟨by rfl, by rfl, by decide⟩

/-- Claim C2 (amended): `optimize(optimize(code, L), L) = optimize(code, L)`
holds at level O0, where the enabled pass list is empty and the stage is the
identity; at levels enabling constant folding the pipeline is not idempotent
(see the counterexample). -/
theorem c2_theorem (code : String) :
    (JITEngine.optimize code "O0").bind (fun c => JITEngine.optimize c "O0") =
      JITEngine.optimize code "O0" := rfl

/-- Claim C9: at optimization level O0 the enabled pass list is empty and
`optimize` returns the code unchanged. -/
theorem c9_theorem (code : String) :
    JITEngine.optimize code "O0" = Except.ok code := rfl

/-- Claim C10: for every optimization level outside the registered table,
`compile` rejects with a `JIT Compilation failed:`-prefixed error — the
`TypeError` of the undefined level lookup (or any earlier parse failure) is
caught by the `try`/`catch` at the compile boundary and rethrown wrapped,
never escaping unhandled — and no compilation result is returned. -/
theorem c10_theorem (parseCode compileWithV8 : String → Except String String)
    (code level : String) (enableJIT : Bool)
    (h : JITEngine.optimizationLevels.lookup level = none) :
    ∃ msg, JITEngine.compile parseCode compileWithV8 code level enableJIT =
      Except.error ("JIT Compilation failed: " ++ msg) := by
  unfold JITEngine.compile
  cases hp : parseCode code with
  | error e => exact ⟨e, by simp only [hp]; rfl⟩
  | ok parsed =>
    refine ⟨"Cannot read properties of undefined (reading \x27optimizations\x27)", ?_⟩
    simp only [hp, JITEngine.optimize, h]
    rfl

/-- Claim C10 (witness): the theorem applied at the unregistered level `O5`
with trivial parse and V8 stages. -/
theorem c10_witness :
    JITEngine.optimizationLevels.lookup "O5" = none ∧
    ∃ msg, JITEngine.compile (fun s => Except.ok s) (fun _ => Except.ok "")
      "x" "O5" true = Except.error ("JIT Compilation failed: " ++ msg) :=
  ⟨by decide, c10_theorem (fun s => Except.ok s) (fun _ => Except.ok "") "x" "O5"
    true (by decide)⟩

/-- Claim C3 (counterexample): exhaustion of the wall-clock timeout is not
surfaced as a structured failure result: `execute` rethrows the host's
timeout error as a thrown `Execution failed: ...` exception, so the call has
no successful return value at all. -/
theorem c3_counterexample :
    JITEngine.execute (JITEngine.SandboxOutcome.timesOut
        "Script execution timed out after 10000ms") =
      Except.error "Execution failed: Script execution timed out after 10000ms" ∧
    (JITEngine.execute (JITEngine.SandboxOutcome.timesOut
        "Script execution timed out after 10000ms")).isOk = false :=
  ⟨rfl, rfl⟩

/-- Claim C3 (amended): a synchronous exception raised by the sandboxed code
is caught by the script's inner try/catch and returned to the caller as the
structured failure object `{ error, success: false }`, never as a thrown
exception; a timeout (or a syntax rejection) instead propagates out of
`execute` as a thrown `Execution failed: ...` error, which the HTTP layer,
not the executor, converts into a structured 500 response. -/
theorem c3_theorem (m v : String) :
    JITEngine.execute (JITEngine.SandboxOutcome.completes v) =
      Except.ok (JITEngine.ExecResult.value v) ∧
    JITEngine.execute (JITEngine.SandboxOutcome.throwsError m) =
      Except.ok (JITEngine.ExecResult.runtimeFailure m) ∧
    JITEngine.execute (JITEngine.SandboxOutcome.timesOut m) =
      Except.error ("Execution failed: " ++ m) :=
  ⟨rfl, rfl, rfl⟩

/-- Claim C7: the format bridge's `convert` succeeds exactly on registered
format tags — the unregistered check throws before the cache key is computed
or any lowering runs (it is the first statement of `convert`) — and the
registered stub tags `java-hotspot`, `dotnet-clr` and `v8-bytecode` lower
every input to an empty function list yet convert without error. -/
theorem c7_theorem (instructions fmt : String) :
    ((JITConverter.convert instructions fmt).isOk =
      (JITConverter.supportedFormats.lookup fmt).isSome) ∧
    (JITConverter.convertJavaHotSpot instructions).functions = [] ∧
    (JITConverter.convertDotNetCLR instructions).functions = [] ∧
    (JITConverter.convertV8Bytecode instructions).functions = [] ∧
    (JITConverter.convert instructions "java-hotspot").isOk = true ∧
    (JITConverter.convert instructions "dotnet-clr").isOk = true ∧
    (JITConverter.convert instructions "v8-bytecode").isOk = true := by
  refine ⟨?_, rfl, rfl, rfl, rfl, rfl, rfl⟩
  unfold JITConverter.convert
  cases JITConverter.supportedFormats.lookup fmt <;> rfl

/-- Claim C8 (counterexample): in `convertMethodBody`, the generic type-name
substitution (pass index 17) runs before the string-interpolation conversion
(pass index 18), the reverse of the stated order; on a body with a type name
inside an interpolated string, the substitution therefore rewrites the
still-unconverted `\(Int)` expression text. -/
theorem c8_counterexample :
    SwiftConverter.convertMethodBodyPasses.findIdx
        (fun p => p.1 == "typeMappings") = 17 ∧
    SwiftConverter.convertMethodBodyPasses.findIdx
        (fun p => p.1 == "stringInterpolation") = 18 ∧
    SwiftConverter.typeMappingsPass "print(\x22\\(Int) items\x22)" =
      "print(\x22\\(Number) items\x22)" := by
  refine ⟨by rfl, by rfl, by rfl⟩

/-- Claim C8 (amended): the type-name substitution pass precedes the
string-interpolation pass in the `convertMethodBody` pipeline; the embedded
expression is substituted first and the delimiters convert afterwards, e.g.
the sample body still yields the expected template literal. -/
theorem c8_theorem :
    SwiftConverter.convertMethodBodyPasses.findIdx
        (fun p => p.1 == "typeMappings") <
      SwiftConverter.convertMethodBodyPasses.findIdx
        (fun p => p.1 == "stringInterpolation") ∧
    JS.jsReplace SwiftConverter.interpStep
        (SwiftConverter.typeMappingsPass "print(\x22\\(Int) items\x22)") =
      "print(\x60$\x7bNumber\x7d items\x60)" ∧
    SwiftConverter.convertMethodBody "print(\x22\\(Int) items\x22)" =
      "console.log(\x60$\x7bNumber\x7d items\x60)" := by
  refine ⟨by decide, by rfl, by rfl⟩

/-- Claim C4 (counterexample): `evaluateX()` contains no word-bounded
occurrence of any restricted identifier (the `eval` inside `evaluateX` is
not an identifier use), and it is far below the size limit, yet the verdict
is incompatible with `eval` listed: the check is a raw substring test, so
the claim's characterization of `compatible` is false on this code. -/
theorem c4_counterexample :
    (IOSTranslator.validateIOSCompatibility "evaluateX()").compatible = false ∧
    (IOSTranslator.validateIOSCompatibility "evaluateX()").issues =
      ["Restricted API detected: eval"] ∧
    JS.hasWordOccurrence "eval" "evaluateX()" = false ∧
    "evaluateX()".length ≤ IOSTranslator.maxCodeSize := by
  refine ⟨by rfl, by rfl, by rfl, by decide⟩

/-- Claim C4 (amended): the verdict is computed from substring containment:
`compatible` is true exactly when the code is within the size limit and, for
every restricted identifier occurring as a substring, its `__ios_safe_`
substituted form also occurs somewhere; `confidence` is
`max(0, 1 - issues.length * 0.2)` (clamped at zero). -/
theorem c4_theorem (code : String) :
    ((IOSTranslator.validateIOSCompatibility code).compatible = true ↔
      (code.length ≤ IOSTranslator.maxCodeSize ∧
        ∀ api ∈ IOSTranslator.restrictedAPIs, JS.jsIncludes code api = true →
          JS.jsIncludes code ("__ios_safe_" ++ api) = true)) ∧
    (IOSTranslator.validateIOSCompatibility code).confidence =
      max 0 (1 - ((IOSTranslator.validateIOSCompatibility code).issues.length : ℚ)
        * (1 / 5)) := by
  constructor
  · simp only [IOSTranslator.validateIOSCompatibility, List.isEmpty_iff,
      List.append_eq_nil, List.map_eq_nil_iff, List.filter_eq_nil_iff,
      Bool.and_eq_true, Bool.not_eq_true', decide_eq_true_eq]
    constructor
    · rintro ⟨hfilter, hsize⟩
      constructor
      · by_contra hgt
        simp only [Nat.not_le] at hgt
        simp [hgt] at hsize
      · intro api hmem hinc
        have := hfilter api hmem
        by_contra hno
        exact this ⟨hinc, by simpa using hno⟩
    · rintro ⟨hsize, hall⟩
      constructor
      · intro api hmem hboth
        exact absurd (hall api hmem hboth.1) (by simpa using hboth.2)
      · simp [Nat.not_lt.mpr hsize]
  · rfl

/-- Shared helper: a replace scan whose step never fires on a head `a`
character leaves a string of `a` characters unchanged. -/
theorem jsReplaceScan_all_a (step : Option Char → List Char → Option (List Char × Nat))
    (h : ∀ prev cs, step prev ('a' :: cs) = none) :
    ∀ fuel (prev : Option Char) (l : List Char), (∀ c ∈ l, c = 'a') →
      JS.jsReplaceScan step fuel prev l = l := by
  intro fuel
  induction fuel with
  | zero => intro prev l _; cases l <;> rfl
  | succ n ih =>
    intro prev l hl
    cases l with
    | nil => rfl
    | cons c cs =>
      have hc : c = 'a' := hl c (List.mem_cons_self c cs)
      subst hc
      simp only [JS.jsReplaceScan, h]
      rw [ih (some 'a') cs (fun x hx => hl x (List.mem_cons_of_mem _ hx))]

/-- Shared helper: the block-comment step never fires on `a`. -/
theorem stripBlockCommentsStep_a (prev : Option Char) (cs : List Char) :
    IOSTranslator.stripBlockCommentsStep prev ('a' :: cs) = none := rfl

/-- Shared helper: the line-comment step never fires on `a`. -/
theorem stripLineCommentsStep_a (prev : Option Char) (cs : List Char) :
    IOSTranslator.stripLineCommentsStep prev ('a' :: cs) = none := rfl

/-- Shared helper: the whitespace-collapse step never fires on `a`. -/
theorem collapseWsStep_a (prev : Option Char) (cs : List Char) :
    IOSTranslator.collapseWsStep prev ('a' :: cs) = none := rfl

/-- Shared helper: minification leaves an all-`a` string unchanged. -/
theorem iosMinify_all_a (l : List Char) (h : ∀ c ∈ l, c = 'a') :
    IOSTranslator.iosMinify (String.mk l) = String.mk l := by
  unfold IOSTranslator.iosMinify JS.jsReplace
  rw [jsReplaceScan_all_a _ stripBlockCommentsStep_a _ _ _ h]
  rw [jsReplaceScan_all_a _ stripLineCommentsStep_a _ _ _ h]
  rw [jsReplaceScan_all_a _ collapseWsStep_a _ _ _ h]

/-- Shared helper: string concatenation adds lengths. -/
theorem strLength_append (a b : String) :
    (a ++ b).length = a.length + b.length := by
  cases a with
  | mk la =>
    cases b with
    | mk lb => exact List.length_append la lb

/-- Shared helper: the size-limit stage on overflowing minified code. -/
theorem optimizeForIOS_overflow (code : String) (p : Bool)
    (h : (IOSTranslator.iosMinify code).length > IOSTranslator.maxCodeSize) :
    IOSTranslator.optimizeForIOS code ⟨true, p⟩ =
      String.mk ((IOSTranslator.iosMinify code).data.take
        (IOSTranslator.maxCodeSize - 100)) ++ "\n// TRUNCATED" := by
  unfold IOSTranslator.optimizeForIOS
  simp only [if_true, ite_true]
  rw [if_pos h]

/-- Shared helper: the truncated stage output has length `maxCodeSize - 87`
(`maxCodeSize - 100` kept characters plus the 13-character marker). -/
theorem optimizeForIOS_overflow_length (code : String) (p : Bool)
    (h : (IOSTranslator.iosMinify code).length > IOSTranslator.maxCodeSize) :
    (IOSTranslator.optimizeForIOS code ⟨true, p⟩).length =
      IOSTranslator.maxCodeSize - 87 := by
  rw [optimizeForIOS_overflow code p h, strLength_append]
  show ((IOSTranslator.iosMinify code).data.take
    (IOSTranslator.maxCodeSize - 100)).length + 13 = IOSTranslator.maxCodeSize - 87
  rw [List.length_take]
  have hlen : (IOSTranslator.iosMinify code).data.length >
      IOSTranslator.maxCodeSize := h
  unfold IOSTranslator.maxCodeSize at *
  omega

/-- Shared helper: the wrapped final code adds the harness text lengths. -/
theorem translateFinalCode_length (adapted target : String)
    (opts : IOSTranslator.OptimizeOpts) :
    (IOSTranslator.translateFinalCode adapted target opts).length =
      IOSTranslator.wrapHead.length +
      (IOSTranslator.optimizeForIOS adapted opts).length +
      IOSTranslator.wrapMid.length + target.length +
      IOSTranslator.wrapTail.length := by
  unfold IOSTranslator.translateFinalCode IOSTranslator.wrapForIOSExecution
  simp only [strLength_append]

set_option maxRecDepth 100000 in
/-- Shared helper: the fixed harness text is far longer than the 87
characters of slack the truncation stage leaves. -/
theorem wrapOverhead_ge : IOSTranslator.wrapHead.length +
    IOSTranslator.wrapMid.length + IOSTranslator.wrapTail.length ≥ 88 := by
  decide

/-- Claim C5 (amended): when the (possibly minified) adapted code exceeds
`maxCodeSize`, the size-limit stage truncates it to `maxCodeSize - 100`
characters plus the explicit `\n// TRUNCATED` marker, giving a stage output
of exactly `maxCodeSize - 87 ≤ maxCodeSize` characters — but the execution
wrapper is applied afterwards (translate step 6 follows step 5), so the
final adapted code exceeds the configured maximum by the harness size.
Truncation is moreover applied regardless of `optimizeForSize`. -/
theorem c5_theorem (code target : String) (p : Bool)
    (h : (IOSTranslator.iosMinify code).length > IOSTranslator.maxCodeSize) :
    (IOSTranslator.optimizeForIOS code ⟨true, p⟩).length =
      IOSTranslator.maxCodeSize - 87 ∧
    (∃ pre, IOSTranslator.optimizeForIOS code ⟨true, p⟩ =
      pre ++ "\n// TRUNCATED") ∧
    (IOSTranslator.translateFinalCode code target ⟨true, p⟩).length >
      IOSTranslator.maxCodeSize := by
  refine ⟨optimizeForIOS_overflow_length code p h,
    ⟨String.mk ((IOSTranslator.iosMinify code).data.take
      (IOSTranslator.maxCodeSize - 100)), optimizeForIOS_overflow code p h⟩, ?_⟩
  rw [translateFinalCode_length, optimizeForIOS_overflow_length code p h]
  have hov := wrapOverhead_ge
  unfold IOSTranslator.maxCodeSize at *
  omega

/-- Claim C5 (counterexample): a concrete oversized all-`a` input with
`optimizeForSize = true`: the input exceeds the maximum, yet the final
adaptation output is strictly longer than the configured maximum, refuting
the claimed `length ≤ maximum` bound on the final output. -/
theorem c5_counterexample :
    (String.mk (List.replicate (IOSTranslator.maxCodeSize + 1) 'a')).length >
      IOSTranslator.maxCodeSize ∧
    (IOSTranslator.translateFinalCode
        (String.mk (List.replicate (IOSTranslator.maxCodeSize + 1) 'a'))
        "shortcuts" ⟨true, true⟩).length > IOSTranslator.maxCodeSize := by
  have hmin : (IOSTranslator.iosMinify (String.mk
      (List.replicate (IOSTranslator.maxCodeSize + 1) 'a'))).length >
      IOSTranslator.maxCodeSize := by
    rw [iosMinify_all_a _ (fun c hc => List.eq_of_mem_replicate hc)]
    show (List.replicate (IOSTranslator.maxCodeSize + 1) 'a').length >
      IOSTranslator.maxCodeSize
    rw [List.length_replicate]
    omega
  constructor
  · show (List.replicate (IOSTranslator.maxCodeSize + 1) 'a').length >
      IOSTranslator.maxCodeSize
    rw [List.length_replicate]
    omega
  · rw [translateFinalCode_length, optimizeForIOS_overflow_length _ true hmin]
    have hov := wrapOverhead_ge
    unfold IOSTranslator.maxCodeSize at *
    omega

/-- Claim C5 (witness): the amended theorem applied at the oversized all-`a`
input. -/
theorem c5_witness :
    (IOSTranslator.iosMinify (String.mk
        (List.replicate (IOSTranslator.maxCodeSize + 1) 'a'))).length >
      IOSTranslator.maxCodeSize ∧
    ((IOSTranslator.optimizeForIOS (String.mk
        (List.replicate (IOSTranslator.maxCodeSize + 1) 'a')) ⟨true, true⟩).length =
      IOSTranslator.maxCodeSize - 87 ∧
    (∃ pre, IOSTranslator.optimizeForIOS (String.mk
        (List.replicate (IOSTranslator.maxCodeSize + 1) 'a')) ⟨true, true⟩ =
      pre ++ "\n// TRUNCATED") ∧
    (IOSTranslator.translateFinalCode (String.mk
        (List.replicate (IOSTranslator.maxCodeSize + 1) 'a'))
        "shortcuts" ⟨true, true⟩).length > IOSTranslator.maxCodeSize) := by
  have hmin : (IOSTranslator.iosMinify (String.mk
      (List.replicate (IOSTranslator.maxCodeSize + 1) 'a'))).length >
      IOSTranslator.maxCodeSize := by
    rw [iosMinify_all_a _ (fun c hc => List.eq_of_mem_replicate hc)]
    show (List.replicate (IOSTranslator.maxCodeSize + 1) 'a').length >
      IOSTranslator.maxCodeSize
    rw [List.length_replicate]
    omega
  exact ⟨hmin, c5_theorem _ "shortcuts" true hmin⟩

/-- Shared helper: pushing a method never touches the warnings list. -/
theorem resultPushMethod_warnings (r : SwiftConverter.SwiftParseResult)
    (ctx : SwiftConverter.SwiftCtx) (f : SwiftConverter.SwiftFunc) :
    (SwiftConverter.resultPushMethod r ctx f).warnings = r.warnings := by
  obtain ⟨k, idx⟩ := ctx
  cases k <;> rfl

/-- Shared helper: pushing an initializer never touches the warnings list. -/
theorem resultPushInit_warnings (r : SwiftConverter.SwiftParseResult)
    (ctx : SwiftConverter.SwiftCtx) (ini : SwiftConverter.SwiftInit) :
    (SwiftConverter.resultPushInit r ctx ini).warnings = r.warnings := by
  obtain ⟨k, idx⟩ := ctx
  cases k <;> rfl

/-- Shared helper: pushing a property never touches the warnings list. -/
theorem resultPushProp_warnings (r : SwiftConverter.SwiftParseResult)
    (ctx : SwiftConverter.SwiftCtx) (p : SwiftConverter.SwiftProperty) :
    (SwiftConverter.resultPushProp r ctx p).warnings = r.warnings := by
  obtain ⟨k, idx⟩ := ctx
  cases k <;> rfl

/-- Shared helper: the import branch preserves the warnings list. -/
theorem swiftHandleImport_warnings (line : String)
    (st : SwiftConverter.SwiftState) (i : Nat) :
    (SwiftConverter.swiftHandleImport line st i).1.result.warnings =
      st.result.warnings := by
  simp only [SwiftConverter.swiftHandleImport]
  repeat' split
  all_goals rfl

/-- Shared helper: the class branch preserves the warnings list. -/
theorem swiftHandleClass_warnings (line : String)
    (st : SwiftConverter.SwiftState) (i : Nat) :
    (SwiftConverter.swiftHandleClass line st i).1.result.warnings =
      st.result.warnings := by
  simp only [SwiftConverter.swiftHandleClass]
  repeat' split
  all_goals rfl

/-- Shared helper: the struct branch preserves the warnings list. -/
theorem swiftHandleStruct_warnings (line : String)
    (st : SwiftConverter.SwiftState) (i : Nat) :
    (SwiftConverter.swiftHandleStruct line st i).1.result.warnings =
      st.result.warnings := by
  simp only [SwiftConverter.swiftHandleStruct]
  repeat' split
  all_goals rfl

/-- Shared helper: the enum branch preserves the warnings list. -/
theorem swiftHandleEnum_warnings (line : String)
    (st : SwiftConverter.SwiftState) (i : Nat) :
    (SwiftConverter.swiftHandleEnum line st i).1.result.warnings =
      st.result.warnings := by
  simp only [SwiftConverter.swiftHandleEnum]
  repeat' split
  all_goals rfl

/-- Shared helper: the protocol branch preserves the warnings list. -/
theorem swiftHandleProtocol_warnings (line : String)
    (st : SwiftConverter.SwiftState) (i : Nat) :
    (SwiftConverter.swiftHandleProtocol line st i).1.result.warnings =
      st.result.warnings := by
  simp only [SwiftConverter.swiftHandleProtocol]
  repeat' split
  all_goals rfl

/-- Shared helper: the extension branch preserves the warnings list. -/
theorem swiftHandleExtension_warnings (line : String)
    (st : SwiftConverter.SwiftState) (i : Nat) :
    (SwiftConverter.swiftHandleExtension line st i).1.result.warnings =
      st.result.warnings := by
  simp only [SwiftConverter.swiftHandleExtension]
  repeat' split
  all_goals rfl

/-- Shared helper: the func branch preserves the warnings list. -/
theorem swiftHandleFunc_warnings (lines : List String) (i : Nat)
    (line : String) (st : SwiftConverter.SwiftState) :
    (SwiftConverter.swiftHandleFunc lines i line st).1.result.warnings =
      st.result.warnings := by
  simp only [SwiftConverter.swiftHandleFunc]
  repeat' split
  all_goals
    first
    | rfl
    | simp only [resultPushMethod_warnings]

/-- Shared helper: the init branch preserves the warnings list. -/
theorem swiftHandleInit_warnings (lines : List String) (i : Nat)
    (line : String) (st : SwiftConverter.SwiftState) :
    (SwiftConverter.swiftHandleInit lines i line st).1.result.warnings =
      st.result.warnings := by
  simp only [SwiftConverter.swiftHandleInit]
  repeat' split
  all_goals
    first
    | rfl
    | simp only [resultPushInit_warnings]

/-- Shared helper: the property branch preserves the warnings list. -/
theorem swiftHandleProp_warnings (lines : List String) (i : Nat)
    (line : String) (st : SwiftConverter.SwiftState) :
    (SwiftConverter.swiftHandleProp lines i line st).1.result.warnings =
      st.result.warnings := by
  simp only [SwiftConverter.swiftHandleProp]
  repeat' split
  all_goals
    first
    | rfl
    | simp only [resultPushProp_warnings]

/-- Shared helper: the enum-case branch preserves the warnings list. -/
theorem swiftHandleCase_warnings (line : String)
    (st : SwiftConverter.SwiftState) (i : Nat) :
    (SwiftConverter.swiftHandleCase line st i).1.result.warnings =
      st.result.warnings := by
  simp only [SwiftConverter.swiftHandleCase]
  repeat' split
  all_goals rfl

/-- Shared helper: the fallback branch preserves the warnings list. -/
theorem swiftHandleOther_warnings (line : String)
    (st : SwiftConverter.SwiftState) (i : Nat) :
    (SwiftConverter.swiftHandleOther line st i).1.result.warnings =
      st.result.warnings := by
  simp only [SwiftConverter.swiftHandleOther]
  repeat' split
  all_goals rfl

set_option maxHeartbeats 1000000 in
/-- Shared helper: no branch of the Swift line handler appends a warning. -/
theorem swiftLineStep_warnings (lines : List String) (i : Nat)
    (st : SwiftConverter.SwiftState) :
    (SwiftConverter.swiftLineStep lines i st).1.result.warnings =
      st.result.warnings := by
  simp only [SwiftConverter.swiftLineStep]
  generalize lines.getD i "" = line
  repeat' split
  all_goals
    first
    | rfl
    | exact swiftHandleImport_warnings _ _ _
    | exact swiftHandleClass_warnings _ _ _
    | exact swiftHandleStruct_warnings _ _ _
    | exact swiftHandleEnum_warnings _ _ _
    | exact swiftHandleProtocol_warnings _ _ _
    | exact swiftHandleExtension_warnings _ _ _
    | exact swiftHandleFunc_warnings _ _ _ _
    | exact swiftHandleInit_warnings _ _ _ _
    | exact swiftHandleProp_warnings _ _ _ _
    | exact swiftHandleCase_warnings _ _ _
    | exact swiftHandleOther_warnings _ _ _

/-- Shared helper: the Swift main loop preserves the warnings list. -/
theorem parseSwiftLoop_warnings (lines : List String) :
    ∀ fuel i st,
      (SwiftConverter.parseSwiftLoop lines fuel i st).result.warnings =
        st.result.warnings := by
  intro fuel
  induction fuel with
  | zero => intro i st; rfl
  | succ n ih =>
    intro i st
    simp only [SwiftConverter.parseSwiftLoop]
    split
    · rw [ih]
      exact swiftLineStep_warnings lines i st
    · rfl

/-- Shared helper: the Swift parser returns an empty warnings list on every
input. -/
theorem parseSwift_warnings (code : String) :
    (SwiftConverter.parseSwift code).warnings = [] := by
  simp only [SwiftConverter.parseSwift]
  rw [parseSwiftLoop_warnings]
  rfl

/-- Shared helper: the import branch preserves the warnings list. -/
theorem objcHandleImport_warnings (line : String)
    (st : ObjectiveCConverter.ObjCState) (i : Nat) :
    (ObjectiveCConverter.objcHandleImport line st i).1.result.warnings =
      st.result.warnings := by
  simp only [ObjectiveCConverter.objcHandleImport]
  repeat' split
  all_goals rfl

/-- Shared helper: the protocol branch preserves the warnings list. -/
theorem objcHandleProtocol_warnings (lines : List String) (i : Nat)
    (line : String) (st : ObjectiveCConverter.ObjCState) :
    (ObjectiveCConverter.objcHandleProtocol lines i line st).1.result.warnings =
      st.result.warnings := by
  simp only [ObjectiveCConverter.objcHandleProtocol]
  repeat' split
  all_goals rfl

/-- Shared helper: the category branch preserves the warnings list. -/
theorem objcHandleCategory_warnings (lines : List String) (i : Nat)
    (line : String) (st : ObjectiveCConverter.ObjCState) :
    (ObjectiveCConverter.objcHandleCategory lines i line st).1.result.warnings =
      st.result.warnings := by
  simp only [ObjectiveCConverter.objcHandleCategory]
  repeat' split
  all_goals rfl

/-- Shared helper: the interface branch preserves the warnings list. -/
theorem objcHandleInterface_warnings (line : String)
    (st : ObjectiveCConverter.ObjCState) (i : Nat) :
    (ObjectiveCConverter.objcHandleInterface line st i).1.result.warnings =
      st.result.warnings := by
  simp only [ObjectiveCConverter.objcHandleInterface]
  repeat' split
  all_goals rfl

/-- Shared helper: the implementation branch preserves the warnings list. -/
theorem objcHandleImplementation_warnings (line : String)
    (st : ObjectiveCConverter.ObjCState) (i : Nat) :
    (ObjectiveCConverter.objcHandleImplementation line st i).1.result.warnings =
      st.result.warnings := by
  simp only [ObjectiveCConverter.objcHandleImplementation]
  repeat' split
  all_goals rfl

/-- Shared helper: the property branch preserves the warnings list. -/
theorem objcHandleProperty_warnings (line : String)
    (st : ObjectiveCConverter.ObjCState) (i : Nat) :
    (ObjectiveCConverter.objcHandleProperty line st i).1.result.warnings =
      st.result.warnings := by
  simp only [ObjectiveCConverter.objcHandleProperty]
  repeat' split
  all_goals rfl

/-- Shared helper: the method branch preserves the warnings list. -/
theorem objcHandleMethod_warnings (lines : List String) (i : Nat)
    (line : String) (st : ObjectiveCConverter.ObjCState) :
    (ObjectiveCConverter.objcHandleMethod lines i line st).1.result.warnings =
      st.result.warnings := by
  simp only [ObjectiveCConverter.objcHandleMethod]
  repeat' split
  all_goals rfl

/-- Shared helper: the block branch preserves the warnings list. -/
theorem objcHandleBlock_warnings (line : String)
    (st : ObjectiveCConverter.ObjCState) (i : Nat) :
    (ObjectiveCConverter.objcHandleBlock line st i).1.result.warnings =
      st.result.warnings := by
  simp only [ObjectiveCConverter.objcHandleBlock]
  repeat' split
  all_goals rfl

/-- Shared helper: the fallback branch preserves the warnings list. -/
theorem objcHandleRest_warnings (line : String)
    (st : ObjectiveCConverter.ObjCState) (i : Nat) :
    (ObjectiveCConverter.objcHandleRest line st i).1.result.warnings =
      st.result.warnings := by
  simp only [ObjectiveCConverter.objcHandleRest]
  repeat' split
  all_goals rfl

set_option maxHeartbeats 1000000 in
/-- Shared helper: a successful late-dispatch step preserves the warnings
list of the state. -/
theorem objcLineStepTail_warnings (lines : List String) (i : Nat)
    (line : String) (st st2 : ObjectiveCConverter.ObjCState) (j : Nat)
    (h : ObjectiveCConverter.objcLineStepTail lines i line st =
      Except.ok (st2, j)) :
    st2.result.warnings = st.result.warnings := by
  simp only [ObjectiveCConverter.objcLineStepTail] at h
  repeat' split at h
  all_goals
    first
    | exact Except.noConfusion h
    | (injection h with h
       have h2 : _ = st2 := congrArg Prod.fst h
       rw [← h2]
       try first
       | rfl
       | exact objcHandleProperty_warnings _ _ _
       | exact objcHandleMethod_warnings _ _ _ _
       | exact objcHandleBlock_warnings _ _ _
       | exact objcHandleRest_warnings _ _ _)

set_option maxHeartbeats 1000000 in
/-- Shared helper: a successful Objective-C line handler step preserves the
warnings list of the state. -/
theorem objcLineStep_warnings (lines : List String) (i : Nat)
    (st st2 : ObjectiveCConverter.ObjCState) (j : Nat)
    (h : ObjectiveCConverter.objcLineStep lines i st = Except.ok (st2, j)) :
    st2.result.warnings = st.result.warnings := by
  revert h
  simp only [ObjectiveCConverter.objcLineStep]
  generalize lines.getD i "" = line
  intro h
  repeat' split at h
  all_goals
    first
    | exact Except.noConfusion h
    | exact objcLineStepTail_warnings _ _ _ _ _ _ h
    | (injection h with h
       have h2 : _ = st2 := congrArg Prod.fst h
       rw [← h2]
       try first
       | rfl
       | exact objcHandleImport_warnings _ _ _
       | exact objcHandleProtocol_warnings _ _ _ _
       | exact objcHandleCategory_warnings _ _ _ _
       | exact objcHandleInterface_warnings _ _ _
       | exact objcHandleImplementation_warnings _ _ _)

/-- Shared helper: a successful run of the Objective-C main loop preserves
the warnings list. -/
theorem parseObjCLoop_warnings (lines : List String) :
    ∀ fuel i st st2,
      ObjectiveCConverter.parseObjCLoop lines fuel i st = Except.ok st2 →
        st2.result.warnings = st.result.warnings := by
  intro fuel
  induction fuel with
  | zero =>
    intro i st st2 h
    injection h with h
    subst h
    rfl
  | succ n ih =>
    intro i st st2 h
    simp only [ObjectiveCConverter.parseObjCLoop] at h
    split at h
    · split at h
      next st3 j heq =>
        rw [ih _ _ _ h]
        exact objcLineStep_warnings lines i st st3 j heq
      next e heq => exact Except.noConfusion h
    · injection h with h
      subst h
      rfl

/-- Shared helper: a mapped `Except` that is `ok` came from an `ok`. -/
theorem exceptMap_ok {α β γ : Type} (f : α → β) (x : Except γ α) (b : β)
    (h : x.map f = Except.ok b) : ∃ a, x = Except.ok a ∧ b = f a := by
  cases x with
  | error e => exact Except.noConfusion h
  | ok a =>
    refine ⟨a, rfl, ?_⟩
    have h2 : (Except.ok (f a) : Except γ β) = Except.ok b := h
    injection h2 with h3
    exact h3.symm

/-- Shared helper: whenever the Objective-C parser returns a result, that
result carries an empty warnings list. -/
theorem parseObjectiveC_warnings (code : String)
    (r : ObjectiveCConverter.ObjCParseResult)
    (h : ObjectiveCConverter.parseObjectiveC code = Except.ok r) :
    r.warnings = [] := by
  simp only [ObjectiveCConverter.parseObjectiveC] at h
  obtain ⟨stf, hst, hr⟩ := exceptMap_ok _ _ _ h
  subst hr
  show stf.result.warnings = []
  rw [parseObjCLoop_warnings _ _ _ _ _ hst]
  rfl

/-- Claim C6 (counterexample): the malformed input `@@@ not swift` parses
without throwing but with an empty warnings list (the claim requires a
non-empty one), and the well-formed-looking standalone C function line
`int main()` makes the Objective-C parser throw a TypeError (the branch
calls the undefined `this.parseFunction`), refuting both halves of the
claim. -/
theorem c6_counterexample :
    (SwiftConverter.parseSwift "@@@ not swift").warnings = [] ∧
    ObjectiveCConverter.parseObjectiveC "int main()" =
      Except.error "this.parseFunction is not a function" := by
  exact ⟨rfl, rfl⟩

/-- Claim C6 (amended): the Swift parser is total — every input yields a
structured (possibly partial) result — but unrecognized lines are skipped
silently: the returned warnings list is empty on every input, malformed or
not.  The Objective-C parser is not total: a top-level C-function-shaped
line reaches the standalone-function branch, which calls the undefined
`this.parseFunction` and throws a TypeError (modelled as `Except.error`);
whenever it does return a result, that result also has an empty warnings
list. -/
theorem c6_theorem (code : String) :
    (SwiftConverter.parseSwift code).warnings = [] ∧
    (∀ r, ObjectiveCConverter.parseObjectiveC code = Except.ok r →
      r.warnings = []) :=
  ⟨parseSwift_warnings code, fun r h => parseObjectiveC_warnings code r h⟩

/-- Claim C6 (witness): the amended theorem applied at the malformed input
`@@@ not objc`, whose Objective-C parse succeeds with the empty result. -/
theorem c6_witness :
    ObjectiveCConverter.parseObjectiveC objcSample =
      Except.ok ObjectiveCConverter.emptyObjCResult ∧
    (SwiftConverter.parseSwift objcSample).warnings = [] ∧
    ObjectiveCConverter.emptyObjCResult.warnings = [] := by
  have h := c6_theorem objcSample
  exact ⟨rfl, h.1, h.2 ObjectiveCConverter.emptyObjCResult rfl⟩
